import Mathlib

/-!
Shallow embedding of the generation-orchestration core of the repository
(`src/services/ai_manager.py`): quota tracking (`QuotaManager`), content
validation (`ContentValidator`), circuit breaking, retry, and emergency
fallback (`AIManager`).  Time (both `time.time()` and `datetime.now()`) is
modelled as a natural number of seconds threaded explicitly; the external
network call made by each provider branch of `_try_provider_with_validation`
is modelled by an oracle (`Env`) that yields, per call, either a raised
exception message, an optional text, or the gemini persistent-repetition
outcome.  `time.sleep` delays do not change any observable state and are not
modelled.  Python float ratio comparisons are modelled with exact rational
(cross-multiplied) arithmetic.
-/

set_option maxRecDepth 100000

namespace V601

/-- The four provider names that appear in `QuotaManager.provider_limits`
and in `AIManager.initialize_providers`. -/
inductive PName
  | gemini
  | openai
  | groq
  | huggingface
deriving DecidableEq

/-- A total map from provider names, modelling the Python dicts keyed by
the four provider names (iteration order gemini, openai, groq, huggingface,
the insertion order in the source). -/
structure PMap (α : Type) where
  gemini : α
  openai : α
  groq : α
  huggingface : α
deriving DecidableEq

def PMap.get {α : Type} (m : PMap α) : PName → α
  | .gemini => m.gemini
  | .openai => m.openai
  | .groq => m.groq
  | .huggingface => m.huggingface

def PMap.set {α : Type} (m : PMap α) (p : PName) (v : α) : PMap α :=
  match p with
  | .gemini => { m with gemini := v }
  | .openai => { m with openai := v }
  | .groq => { m with groq := v }
  | .huggingface => { m with huggingface := v }

/-- One entry of `QuotaManager.provider_limits`. -/
structure QuotaLimits where
  daily : Nat
  hourly : Nat
  requests_made : Nat
  last_reset : Nat
deriving DecidableEq

/-- The mutable runtime record `AIManager.providers[name]`.  `modelName`
models the `'model'` key (`none` when the key is absent, as for the
huggingface entry, which only has `'models'`).  `reactivate_at = 0` models an
absent `'reactivate_at'` key (the source reads it with `.get(..., 0)`).
The `daily_requests`/`daily_limit` keys are never read by the orchestration
logic and are omitted. -/
structure ProviderState where
  available : Bool
  hasClient : Bool
  modelName : Option String
  priority : Nat
  error_count : Nat
  consecutive_failures : Nat
  max_errors : Nat
  last_success : Option Nat
  quota_exceeded : Bool
  reactivate_at : Nat
deriving DecidableEq

/- ---------------------------------------------------------------------
String helpers mirroring the Python primitives used by the module.
--------------------------------------------------------------------- -/

/-- The whitespace characters stripped by `str.strip()` / split by
`str.split()` (ASCII subset; CPython also strips other Unicode spaces,
none of which occur in this module). -/
def pyIsSpace (c : Char) : Bool :=
  c = ' ' || c = '\t' || c = '\n' || c = '\r' || c = Char.ofNat 11 || c = Char.ofNat 12

/-- Python `str.strip()` on the character list of a string. -/
def pyStrip (l : List Char) : List Char :=
  ((l.dropWhile pyIsSpace).reverse.dropWhile pyIsSpace).reverse

/-- Python `str.lower()` per character, for the ASCII and Latin-1 letters
that occur in this module (CPython lowercases all of Unicode). -/
def pyLowerChar (c : Char) : Char :=
  if 'A' ≤ c && c ≤ 'Z' then Char.ofNat (c.toNat + 32)
  else if 0xC0 ≤ c.toNat && c.toNat ≤ 0xDE && c.toNat ≠ 0xD7 then Char.ofNat (c.toNat + 32)
  else c

/-- Python `str.upper()` per character, same coverage as `pyLowerChar`. -/
def pyUpperChar (c : Char) : Char :=
  if 'a' ≤ c && c ≤ 'z' then Char.ofNat (c.toNat - 32)
  else if 0xE0 ≤ c.toNat && c.toNat ≤ 0xFE && c.toNat ≠ 0xF7 then Char.ofNat (c.toNat - 32)
  else c

def pyLowerStr (s : String) : String := ⟨s.data.map pyLowerChar⟩

def pyUpperStr (s : String) : String := ⟨s.data.map pyUpperChar⟩

/-- List prefix test (by decidable equality of characters). -/
def isPre : List Char → List Char → Bool
  | [], _ => true
  | _ :: _, [] => false
  | a :: as, b :: bs => a = b && isPre as bs

/-- Python substring containment `pat in txt` on character lists. -/
def containsSub (pat : List Char) : List Char → Bool
  | [] => pat.isEmpty
  | c :: rest => isPre pat (c :: rest) || containsSub pat rest

/-- Python substring containment on strings. -/
def containsSubStr (pat txt : String) : Bool := containsSub pat.data txt.data

/-- Python `s.startswith(pre)`. -/
def pyStartsWith (s pre : String) : Bool := isPre pre.data s.data

/-- Python `str.split()` with no separator: split on whitespace runs,
dropping empty tokens.  `acc` accumulates the current word reversed. -/
def pyWordsAux : List Char → List Char → List (List Char)
  | [], acc => if acc.isEmpty then [] else [acc.reverse]
  | c :: cs, acc =>
    if pyIsSpace c then
      if acc.isEmpty then pyWordsAux cs [] else acc.reverse :: pyWordsAux cs []
    else pyWordsAux cs (c :: acc)

def pyWords (l : List Char) : List (List Char) := pyWordsAux l []

/- ---------------------------------------------------------------------
ContentValidator
--------------------------------------------------------------------- -/

/-- `ContentValidator.GENERIC_PATTERNS`. -/
def genericPatterns : List String :=
  [("customizado para"), ("adequado para"), ("personalizado"),
   ("este produto é ideal"), ("nossa solução"), ("produto ou serviço"),
   ("sua empresa"), ("seu negócio"), ("mercado específico")]

/-- `ContentValidator.MIN_CONTENT_LENGTH.get(component, 150)`. -/
def minLengthOf (component : String) : Nat :=
  if component = ("mental_drivers") then 500
  else if component = ("visual_proofs") then 300
  else if component = ("anti_objection") then 400
  else if component = ("general") then 200
  else 150

/-- The per-component minimum unique-word fraction of `validate_content`,
as an integer percentage (0.25 → 25, 0.3 → 30), read with default 0.25. -/
def minUniquePct (component : String) : Nat :=
  if component = ("mental_drivers") then 25
  else if component = ("visual_proofs") then 30
  else if component = ("anti_objection") then 25
  else if component = ("general") then 25
  else 25

/-- Count of generic patterns occurring in the lowercased content
(`sum(1 for pattern in GENERIC_PATTERNS if pattern.lower() in content.lower())`). -/
def genericCount (lowContent : List Char) : Nat :=
  (genericPatterns.filter
    (fun pat => containsSub (pyLowerStr pat).data lowContent)).length

/-- Rendering of `{x:.1%}` for the exact ratio num/den, rounding half up
(approximates CPython float percent formatting; no theorem below depends on
this string). -/
def fmtRatioPct (num den : Nat) : String :=
  if den = 0 then ("0.0%")
  else
    let t := (num * 1000 + den / 2) / den
    toString (t / 10) ++ ("." : String) ++ toString (t % 10) ++ ("%" : String)

/-- The structural heuristic of `validate_content` (`has_structure`):
paired braces, more than two line breaks, more than three sentence
periods, more than two dashes, or more than one colon. -/
def hasStructure (chars : List Char) : Bool :=
  (chars.contains (Char.ofNat 123) && chars.contains (Char.ofNat 125)) ||
  decide (2 < chars.count '\n') ||
  decide (3 < chars.count '.') ||
  decide (2 < chars.count '-') ||
  decide (1 < chars.count ':')

/-- `ContentValidator.validate_content`, factored over the two numeric
policies selected from the component type.  Returns `(passed, reason)`. -/
def validateCore (minLen pct : Nat) (content : String) : Bool × String :=
  if content = ("") then (false, ("Conteúdo vazio ou inválido"))
  else
    let chars := content.data
    if (pyStrip chars).length < minLen then
      (false, ("Conteúdo muito curto: ") ++ toString chars.length ++ (" < ") ++ toString minLen)
    else
      let low := chars.map pyLowerChar
      let g := genericCount low
      if 5 < g then
        (false, ("Muito genérico: ") ++ toString g ++ (" padrões encontrados"))
      else
        let ws := pyWords low
        let total := ws.length
        let uniq := ws.dedup.length
        if (if total = 0 then true else decide (uniq * 100 < pct * total)) then
          (false, ("Conteúdo repetitivo: ") ++ fmtRatioPct uniq total ++
            (" palavras únicas (mín: ") ++ fmtRatioPct pct 100 ++ (")"))
        else
          if !hasStructure chars && decide (500 < chars.length) then
            (false, ("Conteúdo sem estrutura aparente"))
          else
            (true, ("Conteúdo válido"))

/-- `ContentValidator.validate_content(content, component)`. -/
def validate_content (content : String) (component : String) : Bool × String :=
  validateCore (minLengthOf component) (minUniquePct component) content

/- ---------------------------------------------------------------------
QuotaManager
--------------------------------------------------------------------- -/

/-- `QuotaManager.reset_counters`: zero `requests_made` for every provider
whose last reset is at least one day (86400 s) old. -/
def reset_counters (now : Nat) (q : PMap QuotaLimits) : PMap QuotaLimits :=
  let step := fun (l : QuotaLimits) =>
    if l.last_reset + 86400 ≤ now then { l with requests_made := 0, last_reset := now } else l
  { gemini := step q.gemini, openai := step q.openai,
    groq := step q.groq, huggingface := step q.huggingface }

/-- `QuotaManager.can_use_provider`: reset windows, then compare usage with
the daily limit.  Returns the answer and the (possibly reset) quota state.
All four provider names are keys of `provider_limits`, so the
`provider not in self.provider_limits` branch cannot fire. -/
def can_use_provider (now : Nat) (q : PMap QuotaLimits) (p : PName) :
    Bool × PMap QuotaLimits :=
  let q := reset_counters now q
  (decide ((q.get p).requests_made < (q.get p).daily), q)

/-- `QuotaManager.increment_usage` (unconditionally increments: every
`PName` is a key of `provider_limits`). -/
def increment_usage (q : PMap QuotaLimits) (p : PName) : PMap QuotaLimits :=
  q.set p { q.get p with requests_made := (q.get p).requests_made + 1 }

/-- The component-type priority map of `QuotaManager.get_best_provider`. -/
def priorityListOf (component : String) : List PName :=
  if component = ("mental_drivers") then [.openai, .groq, .gemini, .huggingface]
  else if component = ("visual_proofs") then [.gemini, .openai, .groq, .huggingface]
  else if component = ("anti_objection") then [.openai, .groq, .gemini, .huggingface]
  else [.openai, .groq, .gemini, .huggingface]

/-- Loop body of `get_best_provider`: first provider in the priority list
with quota available. -/
def gbGo (now : Nat) : List PName → PMap QuotaLimits → Option PName × PMap QuotaLimits
  | [], q => (none, q)
  | p :: ps, q =>
    if (can_use_provider now q p).1 then (some p, (can_use_provider now q p).2)
    else gbGo now ps (can_use_provider now q p).2

/-- `QuotaManager.get_best_provider`. -/
def get_best_provider (now : Nat) (component : String) (q : PMap QuotaLimits) :
    Option PName × PMap QuotaLimits :=
  gbGo now (priorityListOf component) q

/- ---------------------------------------------------------------------
AIManager state and circuit breaking
--------------------------------------------------------------------- -/

/-- The mutable state of an `AIManager` instance.  `providers.get p = none`
models a provider absent from `self.providers`.  `disabled` models the set
`self.disabled_providers` (a duplicate-free list).  `calls` is a ghost
cursor into the call oracle; `attemptLog` records, for each entry into
`_try_provider_with_validation`, the provider and whether it was disabled at
that moment; `candLog` records the same at each entry into
`_try_provider_with_exponential_backoff`.  The ghost fields are written
nowhere else and read by no operation. -/
structure GState where
  providers : PMap (Option ProviderState)
  disabled : List PName
  provider_failures : PMap Nat
  quota : PMap QuotaLimits
  fallback_chain : List PName
  calls : Nat
  attemptLog : List (PName × Bool)
  candLog : List (PName × Bool)
deriving DecidableEq

/-- Quota-style errors recognized by `_register_failure` (substring match on
the lowercased message). -/
def quotaIndicator (msg : String) : Bool :=
  let m := pyLowerStr msg
  containsSubStr ("quota") m || containsSubStr ("rate limit") m ||
  containsSubStr ("too many requests") m || containsSubStr ("insufficient_quota") m

/-- `set.add`: append if absent. -/
def addDisabled (l : List PName) (p : PName) : List PName :=
  if p ∈ l then l else l ++ [p]

/-- `AIManager._register_failure(provider_name, error_msg)` at time `now`. -/
def register_failure (now : Nat) (p : PName) (msg : String) (st : GState) : GState :=
  match st.providers.get p with
  | none => st
  | some info =>
    let (info, dis) :=
      if quotaIndicator msg then
        ({ info with quota_exceeded := true, reactivate_at := now + 3600 },
         addDisabled st.disabled p)
      else
        ({ info with error_count := info.error_count + 1,
                     consecutive_failures := info.consecutive_failures + 1 },
         st.disabled)
    let pf := st.provider_failures.set p info.consecutive_failures
    let dis :=
      if info.max_errors ≤ info.consecutive_failures then addDisabled dis p else dis
    { st with providers := st.providers.set p (some info),
              provider_failures := pf, disabled := dis }

/-- `AIManager._register_success(provider_name)` at time `now`. -/
def register_success (now : Nat) (p : PName) (st : GState) : GState :=
  match st.providers.get p with
  | none => st
  | some info =>
    { st with
      providers := st.providers.set p
        (some { info with consecutive_failures := 0, last_success := some now }),
      disabled := st.disabled.erase p }

/-- One iteration of `_check_and_reactivate_providers`: reactivate `p` when
its scheduled `reactivate_at` is positive and has been reached. -/
def reactivateOne (now : Nat) (st : GState) (p : PName) : GState :=
  match st.providers.get p with
  | none => st
  | some info =>
    if 0 < info.reactivate_at ∧ info.reactivate_at ≤ now then
      { st with
        disabled := st.disabled.erase p,
        providers := st.providers.set p
          (some { info with quota_exceeded := false, consecutive_failures := 0,
                            reactivate_at := 0 }) }
    else st

/-- `AIManager._check_and_reactivate_providers`: iterate over a snapshot of
the disabled set. -/
def check_and_reactivate_providers (now : Nat) (st : GState) : GState :=
  st.disabled.foldl (reactivateOne now) st

/- ---------------------------------------------------------------------
Emergency templates.  The f-string templates of
`_generate_enhanced_emergency_content` and the `.format` templates of
`_load_emergency_templates` are transcribed literally, split at the points
where `segmento` is interpolated. -/

/-- The template-substitution context: the `data` dict read with
`data.get('segmento', ...)` and `data.get('produto', ...)`. -/
structure EmCtx where
  segmento : Option String
  produto : Option String

def emergencyDriversA : String := "
\x7b
  \"drivers_mentais_arsenal\": [
    \x7b
      \"numero\": 1,
      \"nome\": \"DRIVER DA TRANSFORMAÇÃO URGENTE\",
      \"gatilho_central\": \"Necessidade imediata de mudança no "

def emergencyDriversB : String := "\",
      \"definicao_visceral\": \"Reconhecer que o status quo não é mais sustentável\",
      \"mecanica_psicologica\": \"Ativa urgência pela mudança necessária\",
      \"roteiro_ativacao\": \x7b
        \"pergunta_abertura\": \"Quando foi a última vez que você sentiu que estava realmente progredindo em "

def emergencyDriversC : String := "?\",
        \"historia_analogia\": \"Um profissional de "

def emergencyDriversD : String := " descobriu que trabalhar mais não era a solução...\",
        \"metafora_visual\": \"É como correr numa esteira - muito esforço, nenhum avanço real\",
        \"comando_acao\": \"Identifique agora o que realmente precisa mudar\"
      \x7d,
      \"frases_ancoragem\": [
        \"Mais do mesmo gera mais do mesmo\",
        \"A definição de insanidade é repetir e esperar resultados diferentes\",
        \"Mudança é a única constante do sucesso\"
      ]
    \x7d
  ],
  \"emergency_mode\": true,
  \"context_adapted\": true
\x7d
"

/-- `AIManager._generate_emergency_drivers`. -/
def emergency_drivers (segmento : String) : String :=
  emergencyDriversA ++ segmento ++ emergencyDriversB ++ segmento ++
    emergencyDriversC ++ segmento ++ emergencyDriversD

def emergencyProofsA : String := "
\x7b
  \"arsenal_provas_visuais\": [
    \x7b
      \"nome\": \"PROVA VISUAL 1: Transformação Comprovada\",
      \"categoria\": \"Instaladora de Crença\",
      \"objetivo_psicologico\": \"Demonstrar possibilidade real de mudança\",
      \"conceito_alvo\": \"Resultados tangíveis em "

def emergencyProofsB : String := "\",
      \"experimento_detalhado\": \"Comparação antes/depois de implementação\",
      \"roteiro_execucao\": \x7b
        \"setup\": \"Apresentar caso real de transformação\",
        \"execucao\": \"Mostrar métricas específicas de melhoria\",
        \"climax\": \"Revelar o resultado final surpreendente\",
        \"bridge\": \"Conectar com a situação atual do prospect\"
      \x7d
    \x7d
  ],
  \"emergency_mode\": true,
  \"context_adapted\": true
\x7d
"

/-- `AIManager._generate_emergency_proofs`. -/
def emergency_proofs (segmento : String) : String :=
  emergencyProofsA ++ segmento ++ emergencyProofsB

/-- `AIManager._generate_emergency_anti_objection` (a plain string, no
interpolation). -/
def emergency_anti_objection : String := "
\x7b
  \"sistema_anti_objecao\": \x7b
    \"objecoes_universais\": \x7b
      \"tempo\": \x7b
        \"objecao_principal\": \"Não tenho tempo para implementar isso\",
        \"contra_ataque_principal\": \"Técnica do Cálculo da Sangria Temporal\",
        \"scripts_neutralizacao\": [
          \"Quanto tempo você está perdendo por não ter isso implementado?\",
          \"O tempo que você \x27não tem\x27 é exatamente o que está sendo desperdiçado\",
          \"Vamos calcular: quantas horas você perde por semana com ineficiência?\"
        ]
      \x7d,
      \"dinheiro\": \x7b
        \"objecao_principal\": \"Está muito caro para mim agora\",
        \"contra_ataque_principal\": \"Comparação Cruel do Custo de Oportunidade\",
        \"scripts_neutralizacao\": [
          \"Qual o custo de não tomar esta decisão?\",
          \"Quanto você já perdeu mantendo as coisas como estão?\",
          \"O que é mais caro: investir na solução ou continuar com o problema?\"
        ]
      \x7d
    \x7d,
    \"emergency_mode\": true
  \x7d
\x7d
"

def emergencyGeneralA : String := "
CONTEÚDO DE EMERGÊNCIA CONTEXTUALIZADO: "

def emergencyGeneralB : String := "

SITUAÇÃO: O sistema está operando em modo de emergência devido a limitações temporárias de API.

ANÁLISE BASEADA EM PADRÕES CONHECIDOS:

1. OPORTUNIDADE IDENTIFICADA
   - Mercado de "

def emergencyGeneralC : String := " em constante evolução
   - Necessidade de diferenciação competitiva
   - Demanda por soluções personalizadas

2. ESTRATÉGIA RECOMENDADA
   - Foco na personalização extrema
   - Implementação gradual e mensurável
   - Acompanhamento de resultados

3. PRÓXIMOS PASSOS
   - Validar estratégia com dados específicos
   - Implementar fase piloto
   - Escalar conforme resultados

STATUS: Conteúdo gerado em modo de emergência - recomenda-se nova análise com APIs disponíveis.
"

/-- `AIManager._generate_emergency_general`. -/
def emergency_general (segmento : String) : String :=
  emergencyGeneralA ++ pyUpperStr segmento ++ emergencyGeneralB ++ segmento ++ emergencyGeneralC

/-- `AIManager._generate_enhanced_emergency_content`: build the four
context-adapted templates and select by component type, falling back to the
general one. -/
def enhanced_emergency_content (component : String) (data : EmCtx) : String :=
  let segmento := data.segmento.getD ("negócios")
  if component = ("mental_drivers") then emergency_drivers segmento
  else if component = ("visual_proofs") then emergency_proofs segmento
  else if component = ("anti_objection") then emergency_anti_objection
  else emergency_general segmento

def basicDriversA : String := "
DRIVER MENTAL CUSTOMIZADO: "

def basicDriversB : String := "

1. DRIVER DA TRANSFORMAÇÃO NECESSÁRIA
- Gatilho: Frustração com resultados atuais
- Mecânica: Contraste entre situação atual e potencial
- Ativação: \"Você já tentou de tudo, mas sempre falta algo crucial...\"

2. DRIVER DA OPORTUNIDADE PERDIDA
- Gatilho: Medo de ficar para trás
- Mecânica: Urgência competitiva
- Ativação: \"Enquanto você hesita, seus concorrentes avançam...\"

3. DRIVER DA AUTORIDADE RECONHECIDA
- Gatilho: Desejo de ser respeitado
- Mecânica: Validação social
- Ativação: \"Imagine ser a referência em "

def basicDriversC : String := "...\"
"

def basicProofs : String := "
PROVA VISUAL 1: TRANSFORMAÇÃO DRAMÁTICA
- Conceito: Antes vs Depois em "

def basicProofsB : String := "
- Execução: Comparação visual clara de resultados
- Materiais: Gráficos, dados, métricas

PROVA VISUAL 2: MÉTODO REVELADO
- Conceito: Como funciona na prática
- Execução: Demonstração passo a passo
- Materiais: Diagramas, fluxogramas

PROVA VISUAL 3: PROVA SOCIAL
- Conceito: Outros já conseguiram
- Execução: Cases de sucesso documentados
- Materiais: Depoimentos, resultados
"

def basicAntiA : String := "
SISTEMA ANTI-OBJEÇÃO: "

def basicAntiB : String := "

OBJEÇÃO: \"Não tenho tempo\"
RESPOSTA: O tempo que você \x27não tem\x27 para se capacitar é exatamente o tempo que está perdendo com ineficiência.

OBJEÇÃO: \"É muito caro\"
RESPOSTA: O custo de não agir é sempre maior que o investimento em crescimento.

OBJEÇÃO: \"Já tentei outras coisas\"
RESPOSTA: As tentativas anteriores falharam porque faltava metodologia sistêmica.
"

/-- `AIManager._generate_emergency_content`: look up the component in
`self.emergency_templates` (which has no `'general'` key, so the fallback
is the empty string) and apply `.format`.  The templates contain only the
`\x7bsegmento\x7d` placeholder, so formatting substitutes `segmento`
(`produto` is passed to `.format` but appears in no template), and the
`except` fallback of the source cannot fire. -/
def emergency_content (component : String) (data : EmCtx) : String :=
  let segmento := data.segmento.getD ("negócios")
  if component = ("mental_drivers") then
    basicDriversA ++ segmento ++ basicDriversB ++ segmento ++ basicDriversC
  else if component = ("visual_proofs") then
    basicProofs ++ segmento ++ basicProofsB
  else if component = ("anti_objection") then
    basicAntiA ++ segmento ++ basicAntiB
  else ("")

/- ---------------------------------------------------------------------
Generation orchestrator
--------------------------------------------------------------------- -/

/-- Outcome of one external provider call inside
`_try_provider_with_validation` (the per-provider branches at its core,
whose network interaction is the out-of-scope collaborator):
`raised msg` models the branch raising an exception with message `msg`
(caught by the surrounding `except`); `produced t` models the branch
binding `result := t` (with `none` for an absent/empty response);
`geminiRepetitive` models the gemini branch detecting persistently
repetitive output, which registers the failure
"Conteúdo persistentemente repetitivo" and returns `None`. -/
inductive CallOutcome
  | raised (msg : String)
  | produced (text : Option String)
  | geminiRepetitive

/-- The call oracle: the outcome of the n-th external provider call of a
run. -/
def Env : Type := Nat → CallOutcome

/-- Consume the next oracle outcome (ghost cursor `calls`). -/
def takeOutcome (env : Env) (st : GState) : CallOutcome × GState :=
  (env st.calls, { st with calls := st.calls + 1 })

/-- Result of `_try_provider_with_validation` as seen by its caller:
`ok r` is a normal return (the whole body after the first two statements is
wrapped in `try/except`, which catches every exception, registers the
failure and returns `None`); `exc msg` is an exception escaping the
function, which can only come from the two dictionary reads before the
`try` block — in particular `provider_info['model']` raises
`KeyError('model')` (whose `str` is `'model'` in quotes) for a provider
without a `'model'` key, such as huggingface. -/
inductive TryOut
  | ok (r : Option String)
  | exc (msg : String)

/-- `AIManager._try_provider_with_validation(provider_name, prompt,
component_type)`.  Appends `(p, disabled?)` to the ghost `attemptLog` at
entry. -/
def try_provider_with_validation (env : Env) (now : Nat) (p : PName)
    (component : String) (st : GState) : TryOut × GState :=
  let st := { st with attemptLog := st.attemptLog ++ [(p, decide (p ∈ st.disabled))] }
  match st.providers.get p with
  | none => (.ok none, st)
  | some info =>
    if !info.hasClient then (.ok none, st)
    else
      match info.modelName with
      | none => (.exc ("\x27model\x27"), st)
      | some _ =>
        let st := { st with quota := increment_usage st.quota p }
        let (out, st) := takeOutcome env st
        match out with
        | .raised msg => (.ok none, register_failure now p msg st)
        | .geminiRepetitive =>
          (.ok none, register_failure now p ("Conteúdo persistentemente repetitivo") st)
        | .produced none => (.ok none, st)
        | .produced (some t) =>
          if (pyStrip t.data).length < 50 then (.ok none, st)
          else
            let v := validate_content t component
            if v.1 then (.ok (some t), register_success now p st)
            else (.ok none, register_failure now p (("Conteúdo rejeitado: ") ++ v.2) st)

/-- The retry loop of `_try_provider_with_exponential_backoff`
(`max_retries = 3`, `base_delay = 2`; the `time.sleep` backoff delays do
not change observable state and are not modelled).  A normal `None` return
from `_try_provider_with_validation` just continues the loop; an escaped
exception whose lowercased message mentions 429 / rate limit / too many
requests also continues it (with a delay except on the last attempt), and
any other escaped exception registers the failure and breaks. -/
def backoffGo (env : Env) (now : Nat) (p : PName) (component : String) :
    Nat → GState → Option String × GState
  | 0, st => (none, st)
  | fuel + 1, st =>
    match try_provider_with_validation env now p component st with
    | (.ok (some r), st) => (some r, st)
    | (.ok none, st) => backoffGo env now p component fuel st
    | (.exc msg, st) =>
      if containsSubStr ("429") (pyLowerStr msg) ||
          containsSubStr ("rate limit") (pyLowerStr msg) ||
          containsSubStr ("too many requests") (pyLowerStr msg) then
        backoffGo env now p component fuel st
      else (none, register_failure now p msg st)

/-- `AIManager._try_provider_with_exponential_backoff`.  Appends
`(p, disabled?)` to the ghost `candLog` at entry. -/
def try_provider_with_exponential_backoff (env : Env) (now : Nat) (p : PName)
    (component : String) (st : GState) : Option String × GState :=
  let st := { st with candLog := st.candLog ++ [(p, decide (p ∈ st.disabled))] }
  backoffGo env now p component 3 st

/-- `AIManager._get_intelligent_fallback_order`: the fallback chain
filtered to registered, available, non-disabled providers, stably sorted by
ascending `consecutive_failures` (Python `sorted` is stable). -/
def cfOf (st : GState) (p : PName) : Nat :=
  match st.providers.get p with
  | some i => i.consecutive_failures
  | none => 0

def insertByKey (key : PName → Nat) (x : PName) : List PName → List PName
  | [] => [x]
  | y :: ys => if key x ≤ key y then x :: y :: ys else y :: insertByKey key x ys

def sortByKey (key : PName → Nat) (l : List PName) : List PName :=
  l.foldr (insertByKey key) []

def get_intelligent_fallback_order (st : GState) : List PName :=
  sortByKey (cfOf st)
    (st.fallback_chain.filter (fun n =>
      (match st.providers.get n with
       | some i => i.available
       | none => false) && !(st.disabled.contains n)))

/-- The fallback loop of `generate_analysis`: skip the already-tried best
provider, skip providers disabled at this point of the loop, skip
providers without quota (the `can_use_provider` call still performs its
window reset), otherwise attempt with exponential backoff. -/
def gaLoop (env : Env) (now : Nat) (component : String) (best : Option PName) :
    List PName → GState → Option String × GState
  | [], st => (none, st)
  | name :: rest, st =>
    if best = some name then gaLoop env now component best rest st
    else if name ∈ st.disabled then gaLoop env now component best rest st
    else
      if !(can_use_provider now st.quota name).1 then
        gaLoop env now component best rest
          { st with quota := (can_use_provider now st.quota name).2 }
      else
        match try_provider_with_exponential_backoff env now name component
            { st with quota := (can_use_provider now st.quota name).2 } with
        | (some r, st) => (some r, st)
        | (none, st) => gaLoop env now component best rest st

/-- `AIManager.generate_analysis(prompt, component_type, **kwargs)` with
`data = kwargs.get('data', \x7b\x7d)`.  `_apply_intelligent_rate_limiting`
only sleeps and rewrites `requests_in_minute`, a key that nothing in the
module ever sets to a nonzero value, so it has no observable effect and is
not modelled.  The prompt only reaches the external call, which the oracle
abstracts. -/
def gaFirst (env : Env) (now : Nat) (component : String) (best : Option PName)
    (st : GState) : Option String × GState :=
  match best with
  | some b =>
    if b ∈ st.disabled then (none, st)
    else try_provider_with_exponential_backoff env now b component st
  | none => (none, st)

def generate_analysis (env : Env) (now : Nat) (prompt component : String)
    (data : EmCtx) (st : GState) : String × GState :=
  let st := check_and_reactivate_providers now st
  let gb := get_best_provider now component st.quota
  let best := gb.1
  let st := { st with quota := gb.2 }
  match gaFirst env now component best st with
  | (some r, st) => (r, st)
  | (none, st) =>
    match gaLoop env now component best (get_intelligent_fallback_order st) st with
    | (some r, st) => (r, st)
    | (none, st) => (enhanced_emergency_content component data, st)

/-- `AIManager.generate_content(prompt, max_tokens, component_type)`
(called without a `data` kwarg, so the inner `generate_analysis` sees
`data = \x7b\x7d`). -/
def generate_content (env : Env) (now : Nat) (prompt : String) (maxTokens : Nat)
    (component : String) (st : GState) : String × GState :=
  let avail :=
    [PName.gemini, .openai, .groq, .huggingface].any (fun p =>
      match st.providers.get p with
      | some i => i.available
      | none => false)
  if !avail then (("Erro: Nenhum provedor de IA disponível."), st)
  else
    let g := generate_analysis env now prompt component ⟨none, none⟩ st
    let content := g.1
    let st := g.2
    if content ≠ ("") ∧ pyStartsWith content ("Erro:") = false ∧
        pyStartsWith content ("CONTEÚDO DE EMERGÊNCIA:") = false then
      if (validate_content content component).1 then (content, st)
      else (emergency_content component ⟨some component, none⟩, st)
    else if content = ("") then (emergency_content component ⟨some component, none⟩, st)
    else (content, st)

/-- The operations that mutate `AIManager` / `QuotaManager` state, for
stating cross-operation invariants. -/
inductive Op
  | fail (now : Nat) (p : PName) (msg : String)
  | succ (now : Nat) (p : PName)
  | react (now : Nat)
  | qreset (now : Nat)
  | quse (now : Nat) (p : PName)
  | qinc (p : PName)
  | gen (env : Env) (now : Nat) (prompt component : String) (data : EmCtx)

def applyOp (st : GState) : Op → GState
  | .fail now p msg => register_failure now p msg st
  | .succ now p => register_success now p st
  | .react now => check_and_reactivate_providers now st
  | .qreset now => { st with quota := reset_counters now st.quota }
  | .quse now p => { st with quota := (can_use_provider now st.quota p).2 }
  | .qinc p => { st with quota := increment_usage st.quota p }
  | .gen env now prompt component data =>
    (generate_analysis env now prompt component data st).2

def applyOps (st : GState) (ops : List Op) : GState := ops.foldl applyOp st

/-- Cumulative error count of `p` (0 when unregistered, matching
`.get('error_count', 0)` in `get_provider_status`). -/
def ecOf (st : GState) (p : PName) : Nat :=
  match st.providers.get p with
  | some i => i.error_count
  | none => 0

/-- Reactivation deadline of `p` (0 when unregistered or unset). -/
def raOf (st : GState) (p : PName) : Nat :=
  match st.providers.get p with
  | some i => i.reactivate_at
  | none => 0

/- ---------------------------------------------------------------------
Basic lemmas about the state maps
--------------------------------------------------------------------- -/

theorem PMap.get_set_self {α : Type} (m : PMap α) (p : PName) (v : α) :
    (m.set p v).get p = v := by
  cases p <;> rfl

theorem PMap.get_set_ne {α : Type} (m : PMap α) {p q : PName} (v : α) (h : q ≠ p) :
    (m.set p v).get q = m.get q := by
  cases p <;> cases q <;> first | rfl | exact absurd rfl h

theorem mem_addDisabled_self (l : List PName) (p : PName) : p ∈ addDisabled l p := by
  unfold addDisabled
  split
  · assumption
  · simp

theorem mem_addDisabled_iff (l : List PName) (p q : PName) :
    q ∈ addDisabled l p ↔ q ∈ l ∨ q = p := by
  unfold addDisabled
  split
  · constructor
    · exact fun h => Or.inl h
    · rintro (h | rfl) <;> assumption
  · simp

/- ---------------------------------------------------------------------
Concrete fixtures used by counterexamples and witnesses: a manager with a
single healthy openai provider (as produced by `initialize_providers` when
only an OpenAI key is configured), observed at time 1000. -/

/-- The openai runtime record right after `initialize_providers`. -/
def openaiFresh : ProviderState :=
  { available := true, hasClient := true, modelName := some ("gpt-4o-mini"),
    priority := 2, error_count := 0, consecutive_failures := 0, max_errors := 5,
    last_success := none, quota_exceeded := false, reactivate_at := 0 }

def quotaFresh : QuotaLimits :=
  { daily := 1000, hourly := 100, requests_made := 0, last_reset := 1000 }

def pmZero : PMap Nat := { gemini := 0, openai := 0, groq := 0, huggingface := 0 }

/-- Manager state with only openai registered and healthy. -/
def stOpenai : GState :=
  { providers := { gemini := none, openai := some openaiFresh,
                   groq := none, huggingface := none },
    disabled := [], provider_failures := pmZero,
    quota := { gemini := quotaFresh, openai := quotaFresh,
               groq := quotaFresh, huggingface := quotaFresh },
    fallback_chain := [.openai], calls := 0, attemptLog := [], candLog := [] }

/-- An oracle on which every provider call raises a transient network
error (no quota/rate-limit wording). -/
def envTransient : Env := fun _ => .raised ("connection reset by peer")

/- ---------------------------------------------------------------------
C3
--------------------------------------------------------------------- -/

/-- C3 counterexample: recording a rate-limited failure (message
"rate limit") for a healthy openai backend does NOT increment
`consecutive_failures` (it stays 0) and immediately disables the backend
with the one-hour quota cooldown (`reactivate_at = 1000 + 3600`), because
`_register_failure` lists "rate limit" among its quota indicators.  This
refutes the claim that a rate_limited error increments
`consecutive_failures` and disables only at `max_errors_before_disable`. -/
theorem c3_rate_limited_is_quota_path :
    cfOf (register_failure 1000 .openai ("rate limit") stOpenai) .openai = 0 ∧
    ecOf (register_failure 1000 .openai ("rate limit") stOpenai) .openai = 0 ∧
    PName.openai ∈ (register_failure 1000 .openai ("rate limit") stOpenai).disabled ∧
    raOf (register_failure 1000 .openai ("rate limit") stOpenai) .openai = 4600 ∧
    cfOf stOpenai .openai = 0 ∧ (openaiFresh.max_errors = 5) := by
  decide

/-- C3 (amended): when a failure is recorded for a registered backend, a
message containing a quota indicator ("quota", "rate limit",
"too many requests", "insufficient_quota" — which covers rate-limited
errors) immediately disables the backend with the fixed one-hour cooldown
and leaves `consecutive_failures` and `error_count` unchanged; a message
with no quota indicator (transient, invalid response, validation
rejection) increments both and puts the backend in the disabled set exactly
when the incremented `consecutive_failures` reaches `max_errors` (or it was
already there). -/
theorem c3_register_failure_classification (st : GState) (now : Nat) (p : PName)
    (msg : String) (info : ProviderState) (h : st.providers.get p = some info) :
    (quotaIndicator msg = true →
      (register_failure now p msg st).providers.get p =
        some { info with quota_exceeded := true, reactivate_at := now + 3600 } ∧
      p ∈ (register_failure now p msg st).disabled) ∧
    (quotaIndicator msg = false →
      (register_failure now p msg st).providers.get p =
        some { info with error_count := info.error_count + 1,
                         consecutive_failures := info.consecutive_failures + 1 } ∧
      (p ∈ (register_failure now p msg st).disabled ↔
        info.max_errors ≤ info.consecutive_failures + 1 ∨ p ∈ st.disabled)) := by
  constructor
  · intro hq
    unfold register_failure
    rw [h]
    simp only [hq, if_true]
    constructor
    · simp [PMap.get_set_self]
    · split <;> simp [mem_addDisabled_self, mem_addDisabled_iff]
  · intro hq
    unfold register_failure
    rw [h]
    simp only [hq, if_false, Bool.false_eq_true]
    refine ⟨by simp [PMap.get_set_self], ?_⟩
    by_cases hc : info.max_errors ≤ info.consecutive_failures + 1
    · simp [hc, mem_addDisabled_iff]
    · simp [hc]

/-- Witness for C3's amended theorem: both branches at concrete inputs. -/
theorem c3_register_failure_classification_witness :
    ((register_failure 1000 .openai ("insufficient_quota") stOpenai).providers.get .openai =
       some { openaiFresh with quota_exceeded := true, reactivate_at := 4600 } ∧
     PName.openai ∈ (register_failure 1000 .openai ("insufficient_quota") stOpenai).disabled) ∧
    ((register_failure 1000 .openai ("http 500") stOpenai).providers.get .openai =
       some { openaiFresh with error_count := 1, consecutive_failures := 1 } ∧
     (PName.openai ∈ (register_failure 1000 .openai ("http 500") stOpenai).disabled ↔
       openaiFresh.max_errors ≤ openaiFresh.consecutive_failures + 1 ∨
         PName.openai ∈ stOpenai.disabled)) :=
  ⟨(c3_register_failure_classification stOpenai 1000 .openai ("insufficient_quota")
      openaiFresh rfl).1 (by decide),
   (c3_register_failure_classification stOpenai 1000 .openai ("http 500")
      openaiFresh rfl).2 (by decide)⟩

/- ---------------------------------------------------------------------
C4
--------------------------------------------------------------------- -/

/-- The openai-only manager after five consecutive transient failures
(which reach `max_errors = 5` and trigger the failure-count disable). -/
def stFiveFailures : GState :=
  (List.range 5).foldl
    (fun s _ => register_failure 1000 .openai ("connection error") s) stOpenai

/-- C4 failing run: after `consecutive_failures` reaches `max_errors`, the
backend is put in the disabled set with `reactivate_at` still 0 (the
non-quota branch of `_register_failure` never schedules a reactivation),
and `_check_and_reactivate_providers` — which only acts when
`reactivate_at > 0` — leaves it disabled at every later time.  The claim's
finite `disabled_until` deadline does not exist on this path. -/
theorem c4_failure_count_disable_is_permanent :
    cfOf stFiveFailures .openai = 5 ∧
    PName.openai ∈ stFiveFailures.disabled ∧
    raOf stFiveFailures .openai = 0 ∧
    ∀ t : Nat, PName.openai ∈ (check_and_reactivate_providers t stFiveFailures).disabled := by
  refine ⟨by decide, by decide, by decide, ?_⟩
  intro t
  have hdis : stFiveFailures.disabled = [.openai] := by decide
  have hget : stFiveFailures.providers.get .openai =
      some { openaiFresh with error_count := 5, consecutive_failures := 5 } := by decide
  have hone : reactivateOne t stFiveFailures .openai = stFiveFailures := by
    unfold reactivateOne
    rw [hget]
    simp [openaiFresh]
  unfold check_and_reactivate_providers
  rw [hdis]
  simp only [List.foldl_cons, List.foldl_nil]
  rw [hone, hdis]
  simp

/- ---------------------------------------------------------------------
C2
--------------------------------------------------------------------- -/

/-- C2 failing run: with a healthy openai backend whose every call raises
a transient error ("connection reset by peer" — not rate-limited), one
`generate_analysis` call makes THREE attempts against openai (the ghost
attempt log), registering three failures and consuming three quota units,
instead of moving to the next candidate after one attempt.  The
`except` branch of `_try_provider_with_exponential_backoff` that is meant
to break out on non-rate-limit errors is unreachable for providers with a
`'model'` key, because `_try_provider_with_validation` catches every
exception internally and returns `None`, which the retry loop treats as
"try again" regardless of the failure classification (and without any
backoff delay). -/
theorem c2_transient_failure_retried_three_times :
    (generate_analysis envTransient 1000 ("p") ("general") ⟨none, none⟩ stOpenai).2.attemptLog =
      [(.openai, false), (.openai, false), (.openai, false)] ∧
    cfOf (generate_analysis envTransient 1000 ("p") ("general") ⟨none, none⟩ stOpenai).2 .openai = 3 ∧
    ((generate_analysis envTransient 1000 ("p") ("general") ⟨none, none⟩ stOpenai).2.quota.get
        .openai).requests_made = 3 := by
  decide

/- ---------------------------------------------------------------------
C5 counterexample
--------------------------------------------------------------------- -/

/-- The openai-only manager with openai one request below its daily
limit (2 of 3 used). -/
def stQuotaEdge : GState :=
  { stOpenai with
    quota := { gemini := quotaFresh,
               openai := { daily := 3, hourly := 100, requests_made := 2, last_reset := 1000 },
               groq := quotaFresh, huggingface := quotaFresh } }

/-- C5 counterexample: with openai strictly under its limit (2 < 3) when
the candidate is checked, one `generate_analysis` call leaves
`requests_made = 5 > 3`: the quota check happens once per candidate, and
the retry loop's second and third attempts call `increment_usage` while
`requests_made` is already at or above the limit.  This refutes both
"never exceeds the configured limit" and "consumed only when strictly
below the limit at the moment of that attempt". -/
theorem c5_requests_exceed_limit :
    ((generate_analysis envTransient 1000 ("p") ("general") ⟨none, none⟩ stQuotaEdge).2.quota.get
        .openai).requests_made = 5 ∧
    (stQuotaEdge.quota.get .openai).daily = 3 ∧
    (stQuotaEdge.quota.get .openai).requests_made < (stQuotaEdge.quota.get .openai).daily := by
  decide

/- ---------------------------------------------------------------------
C6 counterexample
--------------------------------------------------------------------- -/

/-- The openai-only manager with openai one failure short of its disable
threshold (`consecutive_failures = 4`, `max_errors = 5`). -/
def stNearDisable : GState :=
  { stOpenai with
    providers := { gemini := none,
                   openai := some { openaiFresh with consecutive_failures := 4 },
                   groq := none, huggingface := none } }

/-- C6 counterexample: openai's first attempt fails transiently, reaching
`max_errors` and putting openai in the disabled set; the retry loop then
begins its second and third attempts against openai while it is disabled
(the ghost attempt log records `(openai, true)`).  This refutes "every
generation attempt is made against a backend that is not disabled at the
moment the attempt begins". -/
theorem c6_attempt_begins_on_disabled_backend :
    (generate_analysis envTransient 1000 ("p") ("general") ⟨none, none⟩ stNearDisable).2.attemptLog =
      [(.openai, false), (.openai, true), (.openai, true)] := by
  decide

/- ---------------------------------------------------------------------
C9
--------------------------------------------------------------------- -/

/-- C9: when no registered provider has `available = true` (in particular
when nothing was registered because no API key was configured),
`generate_content` returns the literal error string instead of emergency
template content, leaving the state untouched. -/
theorem c9_no_provider_error_string (env : Env) (now : Nat) (prompt : String)
    (maxTokens : Nat) (component : String) (st : GState)
    (h : ∀ p info, st.providers.get p = some info → info.available = false) :
    generate_content env now prompt maxTokens component st =
      (("Erro: Nenhum provedor de IA disponível."), st) := by
  unfold generate_content
  have havail : ∀ p : PName,
      (match st.providers.get p with
       | some i => i.available
       | none => false) = false := by
    intro p
    cases hg : st.providers.get p with
    | none => rfl
    | some i => exact h p i hg
  simp only [List.any_cons, List.any_nil, havail, Bool.or_false, Bool.or_self]
  rfl

/-- The manager state when no API key was configured: no provider
registered. -/
def stEmptyManager : GState :=
  { providers := { gemini := none, openai := none, groq := none, huggingface := none },
    disabled := [], provider_failures := pmZero,
    quota := { gemini := quotaFresh, openai := quotaFresh,
               groq := quotaFresh, huggingface := quotaFresh },
    fallback_chain := [], calls := 0, attemptLog := [], candLog := [] }

/-- Witness for C9 at the empty manager. -/
theorem c9_no_provider_error_string_witness :
    generate_content envTransient 1000 ("p") 4096 ("general") stEmptyManager =
      (("Erro: Nenhum provedor de IA disponível."), stEmptyManager) :=
  c9_no_provider_error_string envTransient 1000 ("p") 4096 ("general") stEmptyManager
    (fun p info hg => by cases p <;> exact Option.noConfusion hg)

/- ---------------------------------------------------------------------
C8
--------------------------------------------------------------------- -/

/-- C8 counterexample: for the empty string (whose stripped length 0 is
below every minimum), `validate_content` rejects with the
"Conteúdo vazio ou inválido" reason of its emptiness pre-check, not with
the too-short reason the claim promises for every string below the
minimum. -/
theorem c8_empty_string_not_too_short_reason :
    (pyStrip (("" : String)).data).length < minLengthOf ("general") ∧
    validate_content ("") ("general") = (false, ("Conteúdo vazio ou inválido")) ∧
    (validate_content ("") ("general")).2 ≠ ("Conteúdo muito curto: 0 < 200") := by
  decide

/-- C8 (amended): for every NON-empty string, the validator rejects with
the too-short reason exactly when the stripped length is below the
component minimum (500/300/400/200 for the four known component types, 150
otherwise), and accepts with "Conteúdo válido" when the length check and
the generic-phrase, lexical-diversity and structure checks all pass;
checks run in order, the length verdict being independent of the later
checks.  The empty string is instead rejected by the emptiness pre-check
with reason "Conteúdo vazio ou inválido". -/
theorem c8_validator_length_gate (s c : String) :
    (s ≠ ("") → (pyStrip s.data).length < minLengthOf c →
      validate_content s c =
        (false, ("Conteúdo muito curto: ") ++ toString s.data.length ++ (" < ") ++
          toString (minLengthOf c))) ∧
    (s ≠ ("") → minLengthOf c ≤ (pyStrip s.data).length →
      genericCount (s.data.map pyLowerChar) ≤ 5 →
      (pyWords (s.data.map pyLowerChar)).length ≠ 0 →
      minUniquePct c * (pyWords (s.data.map pyLowerChar)).length ≤
        (pyWords (s.data.map pyLowerChar)).dedup.length * 100 →
      (hasStructure s.data = true ∨ s.data.length ≤ 500) →
      validate_content s c = (true, ("Conteúdo válido"))) ∧
    (minLengthOf ("mental_drivers") = 500 ∧ minLengthOf ("visual_proofs") = 300 ∧
     minLengthOf ("anti_objection") = 400 ∧ minLengthOf ("general") = 200 ∧
     (c ≠ ("mental_drivers") → c ≠ ("visual_proofs") → c ≠ ("anti_objection") →
      c ≠ ("general") → minLengthOf c = 150)) := by
  refine ⟨?_, ?_, by decide, by decide, by decide, by decide, ?_⟩
  · intro hne hlt
    unfold validate_content validateCore
    rw [if_neg hne, if_pos hlt]
  · intro hne hge hgen htot hdiv hstruct
    unfold validate_content validateCore
    rw [if_neg hne, if_neg (Nat.not_lt.mpr hge), if_neg (Nat.not_lt.mpr hgen)]
    have hratio :
        (if (pyWords (s.data.map pyLowerChar)).length = 0 then true
         else decide ((pyWords (s.data.map pyLowerChar)).dedup.length * 100 <
           minUniquePct c * (pyWords (s.data.map pyLowerChar)).length)) = false := by
      rw [if_neg htot]
      exact decide_eq_false (Nat.not_lt.mpr hdiv)
    rw [if_neg (by rw [hratio]; exact Bool.false_ne_true)]
    have hs : (!hasStructure s.data && decide (500 < s.data.length)) = false := by
      rcases hstruct with h | h
      · rw [h]; rfl
      · rw [decide_eq_false (Nat.not_lt.mpr h), Bool.and_false]
    rw [if_neg (by rw [hs]; exact Bool.false_ne_true)]
  · intro h1 h2 h3 h4
    unfold minLengthOf
    rw [if_neg h1, if_neg h2, if_neg h3, if_neg h4]

/-- A 249-character, 50-distinct-word sample used by the C8 witness. -/
def sampleDiverse : String :=
  "aa00 aa01 aa02 aa03 aa04 aa05 aa06 aa07 aa08 aa09 aa10 aa11 aa12 aa13 aa14 aa15 aa16 aa17 aa18 aa19 aa20 aa21 aa22 aa23 aa24 aa25 aa26 aa27 aa28 aa29 aa30 aa31 aa32 aa33 aa34 aa35 aa36 aa37 aa38 aa39 aa40 aa41 aa42 aa43 aa44 aa45 aa46 aa47 aa48 aa49"

/-- Witness for C8's amended theorem: a too-short rejection at "abc" and
an acceptance at a 249-character diverse sample, both for the "general"
component. -/
theorem c8_validator_length_gate_witness :
    validate_content ("abc") ("general") = (false, ("Conteúdo muito curto: 3 < 200")) ∧
    validate_content sampleDiverse ("general") = (true, ("Conteúdo válido")) :=
  ⟨(c8_validator_length_gate ("abc") ("general")).1 (by decide) (by decide),
   (c8_validator_length_gate sampleDiverse ("general")).2.1 (by decide) (by decide)
     (by decide) (by decide) (by decide) (Or.inr (by decide))⟩

/- ---------------------------------------------------------------------
Frame lemmas: which fields each state operation leaves untouched.
--------------------------------------------------------------------- -/

theorem register_failure_frame (now : Nat) (p : PName) (msg : String) (st : GState) :
    (register_failure now p msg st).quota = st.quota ∧
    (register_failure now p msg st).calls = st.calls ∧
    (register_failure now p msg st).candLog = st.candLog ∧
    (register_failure now p msg st).attemptLog = st.attemptLog := by
  unfold register_failure
  split
  · exact ⟨rfl, rfl, rfl, rfl⟩
  · split <;> exact ⟨rfl, rfl, rfl, rfl⟩

theorem register_success_frame (now : Nat) (p : PName) (st : GState) :
    (register_success now p st).quota = st.quota ∧
    (register_success now p st).calls = st.calls ∧
    (register_success now p st).candLog = st.candLog ∧
    (register_success now p st).attemptLog = st.attemptLog := by
  unfold register_success
  split <;> exact ⟨rfl, rfl, rfl, rfl⟩

theorem reactivateOne_frame (now : Nat) (st : GState) (p : PName) :
    (reactivateOne now st p).quota = st.quota ∧
    (reactivateOne now st p).calls = st.calls ∧
    (reactivateOne now st p).candLog = st.candLog ∧
    (reactivateOne now st p).attemptLog = st.attemptLog := by
  unfold reactivateOne
  split
  · exact ⟨rfl, rfl, rfl, rfl⟩
  · split <;> exact ⟨rfl, rfl, rfl, rfl⟩

theorem check_and_reactivate_frame (now : Nat) (st : GState) :
    (check_and_reactivate_providers now st).quota = st.quota ∧
    (check_and_reactivate_providers now st).calls = st.calls ∧
    (check_and_reactivate_providers now st).candLog = st.candLog ∧
    (check_and_reactivate_providers now st).attemptLog = st.attemptLog := by
  unfold check_and_reactivate_providers
  generalize st.disabled = L
  induction L generalizing st with
  | nil => exact ⟨rfl, rfl, rfl, rfl⟩
  | cons q rest ih =>
    simp only [List.foldl_cons]
    obtain ⟨h1, h2, h3, h4⟩ := ih (reactivateOne now st q)
    obtain ⟨g1, g2, g3, g4⟩ := reactivateOne_frame now st q
    exact ⟨h1.trans g1, h2.trans g2, h3.trans g3, h4.trans g4⟩

theorem ecOf_eq_of_get {st : GState} {q : PName} {i : ProviderState}
    (h : st.providers.get q = some i) : ecOf st q = i.error_count := by
  unfold ecOf
  rw [h]

theorem ecOf_eq_zero_of_get {st : GState} {q : PName}
    (h : st.providers.get q = none) : ecOf st q = 0 := by
  unfold ecOf
  rw [h]

theorem register_failure_get_none {now : Nat} {p : PName} {msg : String} {st : GState}
    (h : st.providers.get p = none) : register_failure now p msg st = st := by
  unfold register_failure
  rw [h]

theorem register_failure_get_ne (now : Nat) (p : PName) (msg : String) (st : GState)
    {q : PName} (h : q ≠ p) :
    (register_failure now p msg st).providers.get q = st.providers.get q := by
  unfold register_failure
  split
  · rfl
  · split <;> exact PMap.get_set_ne _ _ h

theorem register_failure_get_self (now : Nat) (p : PName) (msg : String) (st : GState)
    {info : ProviderState} (h : st.providers.get p = some info) :
    (register_failure now p msg st).providers.get p =
      (if quotaIndicator msg then
        some { info with quota_exceeded := true, reactivate_at := now + 3600 }
       else
        some { info with error_count := info.error_count + 1,
                         consecutive_failures := info.consecutive_failures + 1 }) := by
  by_cases hq : quotaIndicator msg = true
  · simp [register_failure, h, hq, PMap.get_set_self]
  · simp [register_failure, h, hq, PMap.get_set_self]

/-- `error_count` never decreases under `_register_failure`. -/
theorem register_failure_ec (now : Nat) (p : PName) (msg : String) (st : GState)
    (q : PName) : ecOf st q ≤ ecOf (register_failure now p msg st) q := by
  by_cases hpq : q = p
  · subst hpq
    cases heq : st.providers.get q with
    | none => rw [register_failure_get_none heq]
    | some info =>
      rw [ecOf_eq_of_get heq]
      have hg := register_failure_get_self now q msg st heq
      by_cases hq : quotaIndicator msg = true
      · rw [if_pos hq] at hg
        rw [ecOf_eq_of_get hg]
      · rw [if_neg hq] at hg
        rw [ecOf_eq_of_get hg]
        exact Nat.le_succ _
  · unfold ecOf
    rw [register_failure_get_ne now p msg st hpq]

theorem register_success_get_ne (now : Nat) (p : PName) (st : GState)
    {q : PName} (h : q ≠ p) :
    (register_success now p st).providers.get q = st.providers.get q := by
  unfold register_success
  split
  · rfl
  · exact PMap.get_set_ne _ _ h

theorem register_success_get_self (now : Nat) (p : PName) (st : GState)
    {info : ProviderState} (h : st.providers.get p = some info) :
    (register_success now p st).providers.get p =
      some { info with consecutive_failures := 0, last_success := some now } := by
  unfold register_success
  rw [h]
  exact PMap.get_set_self _ _ _

/-- `error_count` is unchanged by `_register_success`. -/
theorem register_success_ec (now : Nat) (p : PName) (st : GState) (q : PName) :
    ecOf (register_success now p st) q = ecOf st q := by
  by_cases hpq : q = p
  · subst hpq
    cases heq : st.providers.get q with
    | none =>
      have : register_success now q st = st := by
        unfold register_success
        rw [heq]
      rw [this]
    | some info =>
      rw [ecOf_eq_of_get (register_success_get_self now q st heq), ecOf_eq_of_get heq]
  · unfold ecOf
    rw [register_success_get_ne now p st hpq]

theorem reactivateOne_get_ne (now : Nat) (st : GState) (p : PName)
    {q : PName} (h : q ≠ p) :
    (reactivateOne now st p).providers.get q = st.providers.get q := by
  unfold reactivateOne
  split
  · rfl
  · split
    · exact PMap.get_set_ne _ _ h
    · rfl

theorem reactivateOne_get_none {now : Nat} {st : GState} {p : PName}
    (h : st.providers.get p = none) : reactivateOne now st p = st := by
  unfold reactivateOne
  rw [h]

theorem reactivateOne_no_fire {now : Nat} {st : GState} {p : PName}
    {info : ProviderState} (h : st.providers.get p = some info)
    (hc : ¬(0 < info.reactivate_at ∧ info.reactivate_at ≤ now)) :
    reactivateOne now st p = st := by
  simp [reactivateOne, h, hc]

theorem reactivateOne_fire {now : Nat} {st : GState} {p : PName}
    {info : ProviderState} (h : st.providers.get p = some info)
    (hc : 0 < info.reactivate_at ∧ info.reactivate_at ≤ now) :
    reactivateOne now st p =
      { st with
        disabled := st.disabled.erase p,
        providers := st.providers.set p
          (some { info with quota_exceeded := false, consecutive_failures := 0,
                            reactivate_at := 0 }) } := by
  simp [reactivateOne, h, hc]

theorem reactivateOne_ec (now : Nat) (st : GState) (p : PName) (q : PName) :
    ecOf (reactivateOne now st p) q = ecOf st q := by
  by_cases hpq : q = p
  · subst hpq
    cases heq : st.providers.get q with
    | none => rw [reactivateOne_get_none heq]
    | some info =>
      by_cases hc : 0 < info.reactivate_at ∧ info.reactivate_at ≤ now
      · rw [reactivateOne_fire heq hc]
        rw [ecOf_eq_of_get (PMap.get_set_self _ _ _), ecOf_eq_of_get heq]
      · rw [reactivateOne_no_fire heq hc]
  · unfold ecOf
    rw [reactivateOne_get_ne now st p hpq]

/-- `error_count` is unchanged by `_check_and_reactivate_providers`. -/
theorem check_and_reactivate_ec (now : Nat) (st : GState) (q : PName) :
    ecOf (check_and_reactivate_providers now st) q = ecOf st q := by
  unfold check_and_reactivate_providers
  generalize st.disabled = L
  induction L generalizing st with
  | nil => rfl
  | cons r rest ih =>
    simp only [List.foldl_cons]
    rw [ih (reactivateOne now st r), reactivateOne_ec]

/-- `error_count` never decreases across one validated attempt. -/
theorem tryVal_ec (env : Env) (now : Nat) (p : PName) (c : String) (st : GState)
    (q : PName) : ecOf st q ≤ ecOf (try_provider_with_validation env now p c st).2 q := by
  simp only [try_provider_with_validation, takeOutcome]
  repeat' split
  all_goals
    first
      | exact Nat.le_refl _
      | (refine Nat.le_trans ?_ (register_failure_ec now p _ _ q)
         exact Nat.le_refl _)
      | (refine Nat.le_trans ?_ (Nat.le_of_eq (register_success_ec now p _ q).symm)
         exact Nat.le_refl _)

/-- `error_count` never decreases across the retry loop. -/
theorem backoffGo_ec (env : Env) (now : Nat) (p : PName) (c : String) (fuel : Nat) :
    ∀ (st : GState) (q : PName), ecOf st q ≤ ecOf (backoffGo env now p c fuel st).2 q := by
  induction fuel with
  | zero => intro st q; exact Nat.le_refl _
  | succ n ih =>
    intro st q
    have h := tryVal_ec env now p c st q
    unfold backoffGo
    split
    · next heq => rw [heq] at h; exact h
    · next heq => rw [heq] at h; exact h.trans (ih _ q)
    · next heq =>
      rw [heq] at h
      split
      · exact h.trans (ih _ q)
      · exact h.trans (register_failure_ec now p _ _ q)

theorem tryBackoff_ec (env : Env) (now : Nat) (p : PName) (c : String) (st : GState)
    (q : PName) :
    ecOf st q ≤ ecOf (try_provider_with_exponential_backoff env now p c st).2 q := by
  simp only [try_provider_with_exponential_backoff]
  refine Nat.le_trans ?_ (backoffGo_ec env now p c 3 _ q)
  exact Nat.le_refl _

/-- `error_count` never decreases across the fallback loop. -/
theorem gaLoop_ec (env : Env) (now : Nat) (c : String) (best : Option PName)
    (L : List PName) : ∀ (st : GState) (q : PName),
    ecOf st q ≤ ecOf (gaLoop env now c best L st).2 q := by
  induction L with
  | nil => intro st q; exact Nat.le_refl _
  | cons name rest ih =>
    intro st q
    unfold gaLoop
    split
    · exact ih st q
    · split
      · exact ih st q
      · split
        · refine Nat.le_trans ?_ (ih _ q)
          exact Nat.le_refl _
        · split
          · next heq =>
            have h := tryBackoff_ec env now name c
              { st with quota := (can_use_provider now st.quota name).2 } q
            rw [heq] at h
            exact h
          · next heq =>
            have h := tryBackoff_ec env now name c
              { st with quota := (can_use_provider now st.quota name).2 } q
            rw [heq] at h
            exact h.trans (ih _ q)

theorem gaFirst_ec (env : Env) (now : Nat) (c : String) (best : Option PName)
    (st : GState) (q : PName) :
    ecOf st q ≤ ecOf (gaFirst env now c best st).2 q := by
  unfold gaFirst
  split
  · split
    · exact Nat.le_refl _
    · exact tryBackoff_ec env now _ c st q
  · exact Nat.le_refl _

/-- `error_count` never decreases across the tail of `generate_analysis`
(best-provider attempt, fallback loop, emergency path). -/
theorem gaTail_ec (env : Env) (now : Nat) (c : String) (data : EmCtx)
    (best : Option PName) (stA : GState) (q : PName) :
    ecOf stA q ≤
      ecOf (match gaFirst env now c best stA with
            | (some r, st) => (r, st)
            | (none, st) =>
              match gaLoop env now c best (get_intelligent_fallback_order st) st with
              | (some r, st) => (r, st)
              | (none, st) => (enhanced_emergency_content c data, st)).2 q := by
  have h := gaFirst_ec env now c best stA q
  split
  · next r st1 heq => rw [heq] at h; exact h
  · next st1 heq =>
    rw [heq] at h
    split
    · next r2 st2 heq2 =>
      have h2 := gaLoop_ec env now c best (get_intelligent_fallback_order st1) st1 q
      rw [heq2] at h2
      exact h.trans h2
    · next st2 heq2 =>
      have h2 := gaLoop_ec env now c best (get_intelligent_fallback_order st1) st1 q
      rw [heq2] at h2
      exact h.trans h2

/-- `error_count` never decreases across a whole `generate_analysis` call. -/
theorem generate_analysis_ec (env : Env) (now : Nat) (prompt c : String)
    (data : EmCtx) (st : GState) (q : PName) :
    ecOf st q ≤ ecOf (generate_analysis env now prompt c data st).2 q := by
  simp only [generate_analysis]
  refine Nat.le_trans ?_ (gaTail_ec env now c data _ _ q)
  exact Nat.le_of_eq ((check_and_reactivate_ec now st q).symm.trans rfl)

theorem cfOf_eq_of_get {st : GState} {q : PName} {i : ProviderState}
    (h : st.providers.get q = some i) : cfOf st q = i.consecutive_failures := by
  unfold cfOf
  rw [h]

theorem register_success_disabled {now : Nat} {p : PName} {st : GState}
    {info : ProviderState} (h : st.providers.get p = some info) :
    (register_success now p st).disabled = st.disabled.erase p := by
  unfold register_success
  rw [h]

theorem applyOp_ec (st : GState) (op : Op) (q : PName) :
    ecOf st q ≤ ecOf (applyOp st op) q := by
  cases op with
  | fail now p msg => exact register_failure_ec now p msg st q
  | succ now p => exact Nat.le_of_eq (register_success_ec now p st q).symm
  | react now => exact Nat.le_of_eq (check_and_reactivate_ec now st q).symm
  | qreset now => exact Nat.le_refl _
  | quse now p => exact Nat.le_refl _
  | qinc p => exact Nat.le_refl _
  | gen env now prompt c data => exact generate_analysis_ec env now prompt c data st q

/- ---------------------------------------------------------------------
C10
--------------------------------------------------------------------- -/

/-- C10: over any sequence of state operations (failure or success
registration, reactivation, quota window reset, quota checks and
increments, and whole `generate_analysis` calls), the cumulative
`error_count` of every provider never decreases; and registering a success
for a registered provider resets its `consecutive_failures` to zero and
removes it from the disabled set. -/
theorem c10_error_count_monotone (st : GState) (ops : List Op) (p : PName) :
    ecOf st p ≤ ecOf (applyOps st ops) p ∧
    ∀ (now : Nat) (info : ProviderState), st.providers.get p = some info →
      cfOf (register_success now p st) p = 0 ∧
      (st.disabled.Nodup → p ∉ (register_success now p st).disabled) := by
  constructor
  · unfold applyOps
    induction ops generalizing st with
    | nil => exact Nat.le_refl _
    | cons op rest ih =>
      simp only [List.foldl_cons]
      exact (applyOp_ec st op p).trans (ih (applyOp st op))
  · intro now info h
    constructor
    · rw [cfOf_eq_of_get (register_success_get_self now p st h)]
    · intro hnd hmem
      rw [register_success_disabled h] at hmem
      exact ((List.Nodup.mem_erase_iff hnd).1 hmem).1 rfl

/-- Witness for C10 at a concrete state and operation list. -/
theorem c10_error_count_monotone_witness :
    ecOf stOpenai .openai ≤
      ecOf (applyOps stOpenai
        [Op.fail 1000 .openai ("boom"), Op.succ 1001 .openai, Op.react 1002,
         Op.qreset 1003, Op.gen envTransient 1004 ("p") ("general") ⟨none, none⟩])
        .openai ∧
    (cfOf (register_success 1001 .openai stOpenai) .openai = 0 ∧
     PName.openai ∉ (register_success 1001 .openai stOpenai).disabled) :=
  ⟨(c10_error_count_monotone stOpenai
      [Op.fail 1000 .openai ("boom"), Op.succ 1001 .openai, Op.react 1002,
       Op.qreset 1003, Op.gen envTransient 1004 ("p") ("general") ⟨none, none⟩] .openai).1,
   ((c10_error_count_monotone stOpenai [] .openai).2 1001 openaiFresh rfl).1,
   ((c10_error_count_monotone stOpenai [] .openai).2 1001 openaiFresh rfl).2 (by decide)⟩

/- ---------------------------------------------------------------------
C7
--------------------------------------------------------------------- -/

theorem reactivateOne_not_mem {now : Nat} {st : GState} {p q : PName}
    (hne : p ≠ q) (h : p ∉ st.disabled) : p ∉ (reactivateOne now st q).disabled := by
  unfold reactivateOne
  split
  · exact h
  · split
    · exact fun hmem => h (List.mem_of_mem_erase hmem)
    · exact h

theorem reactivateOne_nodup {now : Nat} {st : GState} {q : PName}
    (h : st.disabled.Nodup) : (reactivateOne now st q).disabled.Nodup := by
  unfold reactivateOne
  split
  · exact h
  · split
    · exact h.erase _
    · exact h

/-- Once a provider has been reactivated (or was never disabled), the rest
of the reactivation sweep does not disturb it. -/
theorem reactFold_pres (now : Nat) (p : PName) (u : Option ProviderState) :
    ∀ (L : List PName) (st : GState), p ∉ L → p ∉ st.disabled →
      st.providers.get p = u →
      p ∉ (L.foldl (reactivateOne now) st).disabled ∧
      (L.foldl (reactivateOne now) st).providers.get p = u := by
  intro L
  induction L with
  | nil => exact fun st _ h hu => ⟨h, hu⟩
  | cons q rest ih =>
    intro st hL h hu
    have hne : p ≠ q := fun he => hL (he ▸ List.mem_cons_self q rest)
    simp only [List.foldl_cons]
    exact ih (reactivateOne now st q) (fun hm => hL (List.mem_cons_of_mem q hm))
      (reactivateOne_not_mem hne h)
      ((reactivateOne_get_ne now st q hne).trans hu)

/-- The reactivation sweep fires on every listed provider whose deadline
is positive and has been reached. -/
theorem reactFold_hits (now : Nat) (p : PName) (info : ProviderState) :
    ∀ (L : List PName) (st : GState), L.Nodup → st.disabled.Nodup → p ∈ L →
      st.providers.get p = some info →
      0 < info.reactivate_at → info.reactivate_at ≤ now →
      p ∉ (L.foldl (reactivateOne now) st).disabled ∧
      (L.foldl (reactivateOne now) st).providers.get p =
        some { info with quota_exceeded := false, consecutive_failures := 0,
                         reactivate_at := 0 } := by
  intro L
  induction L with
  | nil => exact fun st _ _ h => absurd h (List.not_mem_nil p)
  | cons q rest ih =>
    intro st hLnd hstnd hmem hget hpos hdue
    simp only [List.foldl_cons]
    by_cases hpq : p = q
    · subst hpq
      rw [reactivateOne_fire hget ⟨hpos, hdue⟩]
      have hnotrest : p ∉ rest := (List.nodup_cons.mp hLnd).1
      refine reactFold_pres now p _ rest _ hnotrest ?_ ?_
      · exact fun hm => ((List.Nodup.mem_erase_iff hstnd).1 hm).1 rfl
      · exact PMap.get_set_self _ _ _
    · have hne : p ≠ q := hpq
      have hmemr : p ∈ rest := by
        cases List.mem_cons.mp hmem with
        | inl h => exact absurd h hne
        | inr h => exact h
      exact ih (reactivateOne now st q) (List.nodup_cons.mp hLnd).2
        (reactivateOne_nodup hstnd) hmemr
        ((reactivateOne_get_ne now st q hne).trans hget) hpos hdue

/-- C7: a backend disabled with a scheduled quota cooldown
(`reactivate_at > 0`) is, once the current time reaches the deadline,
removed from the disabled set by `_check_and_reactivate_providers` (which
`generate_analysis` runs before building any candidate list), with its
`quota_exceeded` mark cleared, its `consecutive_failures` reset to zero and
its deadline cleared. -/
theorem c7_quota_cooldown_reactivation (st : GState) (now : Nat) (p : PName)
    (info : ProviderState) (hnd : st.disabled.Nodup)
    (hget : st.providers.get p = some info) (hmem : p ∈ st.disabled)
    (hpos : 0 < info.reactivate_at) (hdue : info.reactivate_at ≤ now) :
    p ∉ (check_and_reactivate_providers now st).disabled ∧
    (check_and_reactivate_providers now st).providers.get p =
      some { info with quota_exceeded := false, consecutive_failures := 0,
                       reactivate_at := 0 } := by
  unfold check_and_reactivate_providers
  exact reactFold_hits now p info st.disabled st hnd hnd hmem hget hpos hdue

/-- The openai-only manager right after a quota failure at time 1000. -/
def stQuotaDisabled : GState := register_failure 1000 .openai ("quota") stOpenai

/-- Witness for C7: the quota-disabled openai backend is reactivated at
time 4600. -/
theorem c7_quota_cooldown_reactivation_witness :
    PName.openai ∉ (check_and_reactivate_providers 4600 stQuotaDisabled).disabled ∧
    (check_and_reactivate_providers 4600 stQuotaDisabled).providers.get .openai =
      some { { openaiFresh with quota_exceeded := true, reactivate_at := 4600 } with
             quota_exceeded := false, consecutive_failures := 0, reactivate_at := 0 } :=
  c7_quota_cooldown_reactivation stQuotaDisabled 4600 .openai
    { openaiFresh with quota_exceeded := true, reactivate_at := 4600 }
    (by decide) (by decide) (by decide) (by decide) (by decide)

/- ---------------------------------------------------------------------
C6 (amended part): the ghost candidate log only ever records candidates
that were not disabled when their retry loop was entered.
--------------------------------------------------------------------- -/

theorem tryVal_candLog (env : Env) (now : Nat) (p : PName) (c : String) (st : GState) :
    (try_provider_with_validation env now p c st).2.candLog = st.candLog := by
  simp only [try_provider_with_validation, takeOutcome]
  repeat' split
  all_goals
    first
      | rfl
      | exact (register_failure_frame now p _ _).2.2.1
      | exact (register_success_frame now p _).2.2.1

theorem backoffGo_candLog (env : Env) (now : Nat) (p : PName) (c : String)
    (fuel : Nat) : ∀ st : GState, (backoffGo env now p c fuel st).2.candLog = st.candLog := by
  induction fuel with
  | zero => intro st; rfl
  | succ n ih =>
    intro st
    have h := tryVal_candLog env now p c st
    unfold backoffGo
    split
    · next heq => rw [heq] at h; exact h
    · next heq => rw [heq] at h; exact (ih _).trans h
    · next heq =>
      rw [heq] at h
      split
      · exact (ih _).trans h
      · exact ((register_failure_frame now p _ _).2.2.1).trans h

theorem tryBackoff_candLog (env : Env) (now : Nat) (p : PName) (c : String)
    (st : GState) :
    (try_provider_with_exponential_backoff env now p c st).2.candLog =
      st.candLog ++ [(p, decide (p ∈ st.disabled))] := by
  simp only [try_provider_with_exponential_backoff]
  exact backoffGo_candLog env now p c 3 _

theorem gaLoop_candLog (env : Env) (now : Nat) (c : String) (best : Option PName) :
    ∀ (L : List PName) (st : GState) (pr : PName) (b : Bool),
      (pr, b) ∈ (gaLoop env now c best L st).2.candLog →
      (pr, b) ∈ st.candLog ∨ b = false := by
  intro L
  induction L with
  | nil => exact fun st pr b h => Or.inl h
  | cons name rest ih =>
    intro st pr b h
    unfold gaLoop at h
    split at h
    · exact ih st pr b h
    · split at h
      · exact ih st pr b h
      · next hmem =>
        have hdec : decide (name ∈ st.disabled) = false := decide_eq_false hmem
        split at h
        · exact ih { st with quota := (can_use_provider now st.quota name).2 } pr b h
        · split at h
          · next heq =>
            have hc := tryBackoff_candLog env now name c
              { st with quota := (can_use_provider now st.quota name).2 }
            rw [heq] at hc
            rw [hc] at h
            rcases List.mem_append.mp h with hin | hin
            · exact Or.inl hin
            · right
              have := List.mem_singleton.mp hin
              rw [hdec] at this
              exact (Prod.mk.injEq _ _ _ _ ▸ this).2
          · next heq =>
            have hc := tryBackoff_candLog env now name c
              { st with quota := (can_use_provider now st.quota name).2 }
            rw [heq] at hc
            rcases ih _ pr b h with hin | hb
            · rw [hc] at hin
              rcases List.mem_append.mp hin with hin2 | hin2
              · exact Or.inl hin2
              · right
                have := List.mem_singleton.mp hin2
                rw [hdec] at this
                exact (Prod.mk.injEq _ _ _ _ ▸ this).2
            · exact Or.inr hb

theorem gaFirst_candLog (env : Env) (now : Nat) (c : String) (best : Option PName)
    (st : GState) (pr : PName) (b : Bool)
    (h : (pr, b) ∈ (gaFirst env now c best st).2.candLog) :
    (pr, b) ∈ st.candLog ∨ b = false := by
  unfold gaFirst at h
  split at h
  · next bb =>
    split at h
    · exact Or.inl h
    · next hmem =>
      have hc := tryBackoff_candLog env now bb c st
      rw [hc] at h
      rcases List.mem_append.mp h with hin | hin
      · exact Or.inl hin
      · right
        have := List.mem_singleton.mp hin
        rw [decide_eq_false hmem] at this
        exact (Prod.mk.injEq _ _ _ _ ▸ this).2
  · exact Or.inl h

/-- C6 (amended): the disabled check is made once per candidate, before
its retry loop: every candidate entered into the ghost candidate log
during a `generate_analysis` call was not disabled at that moment (the
entries of the final log are the initial ones plus entries flagged
`false`).  Attempts WITHIN a retry loop, however, can run on a backend
disabled earlier in the same loop (see the counterexample). -/
theorem c6_candidates_never_disabled (env : Env) (now : Nat) (prompt c : String)
    (data : EmCtx) (st : GState) (pr : PName) (b : Bool)
    (h : (pr, b) ∈ (generate_analysis env now prompt c data st).2.candLog) :
    (pr, b) ∈ st.candLog ∨ b = false := by
  simp only [generate_analysis] at h
  have hframe := (check_and_reactivate_frame now st).2.2.1
  split at h
  · next r st1 heq =>
    have hg := gaFirst_candLog env now c _ _ pr b (by rw [heq]; exact h)
    rcases hg with hin | hb
    · exact Or.inl (by rw [← hframe]; exact hin)
    · exact Or.inr hb
  · next st1 heq =>
    split at h
    · next r2 st2 heq2 =>
      rcases gaLoop_candLog env now c _ _ st1 pr b (by rw [heq2]; exact h) with hin | hb
      · rcases gaFirst_candLog env now c _ _ pr b (by rw [heq]; exact hin) with hin2 | hb2
        · exact Or.inl (by rw [← hframe]; exact hin2)
        · exact Or.inr hb2
      · exact Or.inr hb
    · next st2 heq2 =>
      rcases gaLoop_candLog env now c _ _ st1 pr b (by rw [heq2]; exact h) with hin | hb
      · rcases gaFirst_candLog env now c _ _ pr b (by rw [heq]; exact hin) with hin2 | hb2
        · exact Or.inl (by rw [← hframe]; exact hin2)
        · exact Or.inr hb2
      · exact Or.inr hb

/-- Witness for C6's amended theorem: in the counterexample run (which
starts with an empty candidate log) no disabled candidate is ever entered. -/
theorem c6_candidates_never_disabled_witness :
    (PName.openai, true) ∉
      (generate_analysis envTransient 1000 ("p") ("general") ⟨none, none⟩
        stNearDisable).2.candLog := by
  intro h
  rcases c6_candidates_never_disabled envTransient 1000 ("p") ("general") ⟨none, none⟩
    stNearDisable .openai true h with hin | hb
  · exact absurd hin (by decide)
  · exact Bool.noConfusion hb

/- ---------------------------------------------------------------------
C5 (amended part): quota accounting bounds.
--------------------------------------------------------------------- -/

theorem reset_counters_le (now : Nat) (q : PMap QuotaLimits) (p : PName) :
    ((reset_counters now q).get p).requests_made ≤ (q.get p).requests_made := by
  cases p <;>
    (simp only [reset_counters, PMap.get]
     split
     · exact Nat.zero_le _
     · exact Nat.le_refl _)

theorem reset_counters_daily (now : Nat) (q : PMap QuotaLimits) (p : PName) :
    ((reset_counters now q).get p).daily = (q.get p).daily := by
  cases p <;>
    (simp only [reset_counters, PMap.get]
     split
     · rfl
     · rfl)

theorem increment_usage_rm (q : PMap QuotaLimits) (p p' : PName) :
    ((increment_usage q p).get p').requests_made =
      (q.get p').requests_made + (if p' = p then 1 else 0) := by
  by_cases h : p' = p
  · subst h
    rw [if_pos rfl]
    unfold increment_usage
    rw [PMap.get_set_self]
  · rw [if_neg h]
    unfold increment_usage
    rw [PMap.get_set_ne _ _ h]
    exact (Nat.add_zero _).symm

theorem increment_usage_daily (q : PMap QuotaLimits) (p p' : PName) :
    ((increment_usage q p).get p').daily = (q.get p').daily := by
  by_cases h : p' = p
  · subst h
    unfold increment_usage
    rw [PMap.get_set_self]
  · unfold increment_usage
    rw [PMap.get_set_ne _ _ h]

theorem can_use_snd (now : Nat) (q : PMap QuotaLimits) (p : PName) :
    (can_use_provider now q p).2 = reset_counters now q := rfl

theorem can_use_true (now : Nat) (q : PMap QuotaLimits) (p : PName)
    (h : (can_use_provider now q p).1 = true) :
    (((can_use_provider now q p).2).get p).requests_made <
      (((can_use_provider now q p).2).get p).daily :=
  of_decide_eq_true h

theorem gbGo_le (now : Nat) : ∀ (L : List PName) (q : PMap QuotaLimits) (p : PName),
    ((gbGo now L q).2.get p).requests_made ≤ (q.get p).requests_made ∧
    ((gbGo now L q).2.get p).daily = (q.get p).daily := by
  intro L
  induction L with
  | nil => exact fun q p => ⟨Nat.le_refl _, rfl⟩
  | cons r rest ih =>
    intro q p
    unfold gbGo
    split
    · exact ⟨reset_counters_le now q p, reset_counters_daily now q p⟩
    · obtain ⟨h1, h2⟩ := ih (reset_counters now q) p
      exact ⟨h1.trans (reset_counters_le now q p),
             h2.trans (reset_counters_daily now q p)⟩

theorem gbGo_some (now : Nat) : ∀ (L : List PName) (q : PMap QuotaLimits) (b : PName),
    (gbGo now L q).1 = some b →
    ((gbGo now L q).2.get b).requests_made < ((gbGo now L q).2.get b).daily := by
  intro L
  induction L with
  | nil => exact fun q b h => Option.noConfusion h
  | cons r rest ih =>
    intro q b h
    unfold gbGo at h ⊢
    by_cases hcu : (can_use_provider now q r).1 = true
    · rw [if_pos hcu] at h ⊢
      have hrb : r = b := Option.some.inj h
      subst hrb
      exact of_decide_eq_true hcu
    · rw [if_neg hcu] at h ⊢
      exact ih (can_use_provider now q r).2 b h

theorem get_best_provider_le (now : Nat) (c : String) (q : PMap QuotaLimits)
    (p : PName) :
    (((get_best_provider now c q).2).get p).requests_made ≤ (q.get p).requests_made ∧
    (((get_best_provider now c q).2).get p).daily = (q.get p).daily :=
  gbGo_le now (priorityListOf c) q p

theorem get_best_provider_some (now : Nat) (c : String) (q : PMap QuotaLimits)
    (b : PName) (h : (get_best_provider now c q).1 = some b) :
    (((get_best_provider now c q).2).get b).requests_made <
      (((get_best_provider now c q).2).get b).daily :=
  gbGo_some now (priorityListOf c) q b h

theorem register_failure_quota (now : Nat) (p : PName) (msg : String) (st : GState) :
    (register_failure now p msg st).quota = st.quota :=
  (register_failure_frame now p msg st).1

theorem register_success_quota (now : Nat) (p : PName) (st : GState) :
    (register_success now p st).quota = st.quota :=
  (register_success_frame now p st).1

/-- One validated attempt increments the attempted provider's usage by at
most one and touches no other counter; daily limits are unchanged. -/
theorem tryVal_quota (env : Env) (now : Nat) (p : PName) (c : String) (st : GState)
    (p' : PName) :
    ((try_provider_with_validation env now p c st).2.quota.get p').requests_made ≤
      (st.quota.get p').requests_made + 1 ∧
    (p' ≠ p → ((try_provider_with_validation env now p c st).2.quota.get p').requests_made ≤
      (st.quota.get p').requests_made) ∧
    ((try_provider_with_validation env now p c st).2.quota.get p').daily =
      (st.quota.get p').daily := by
  have ha : ((increment_usage st.quota p).get p').requests_made ≤
      (st.quota.get p').requests_made + 1 := by
    rw [increment_usage_rm]
    split
    · exact Nat.le_refl _
    · omega
  have hb : p' ≠ p → ((increment_usage st.quota p).get p').requests_made ≤
      (st.quota.get p').requests_made := by
    intro hne
    rw [increment_usage_rm, if_neg hne]
    omega
  have hc := increment_usage_daily st.quota p p'
  simp only [try_provider_with_validation, takeOutcome]
  repeat' split
  all_goals
    first
      | exact ⟨Nat.le_add_right _ _, fun _ => Nat.le_refl _, rfl⟩
      | exact ⟨Nat.le_trans
          (Nat.le_of_eq (congrArg (fun z => (PMap.get z p').requests_made)
            (register_failure_quota now p _ _))) ha,
         fun hne => Nat.le_trans
           (Nat.le_of_eq (congrArg (fun z => (PMap.get z p').requests_made)
             (register_failure_quota now p _ _))) (hb hne),
         Eq.trans (congrArg (fun z => (PMap.get z p').daily)
           (register_failure_quota now p _ _)) hc⟩
      | exact ⟨Nat.le_trans
          (Nat.le_of_eq (congrArg (fun z => (PMap.get z p').requests_made)
            (register_success_quota now p _))) ha,
         fun hne => Nat.le_trans
           (Nat.le_of_eq (congrArg (fun z => (PMap.get z p').requests_made)
             (register_success_quota now p _))) (hb hne),
         Eq.trans (congrArg (fun z => (PMap.get z p').daily)
           (register_success_quota now p _)) hc⟩
      | exact ⟨ha, hb, hc⟩

/-- The retry loop consumes at most `fuel` quota units on the attempted
provider and none elsewhere; daily limits are unchanged. -/
theorem backoffGo_quota (env : Env) (now : Nat) (p : PName) (c : String)
    (fuel : Nat) : ∀ (st : GState) (p' : PName),
    ((backoffGo env now p c fuel st).2.quota.get p').requests_made ≤
      (st.quota.get p').requests_made + fuel ∧
    (p' ≠ p → ((backoffGo env now p c fuel st).2.quota.get p').requests_made ≤
      (st.quota.get p').requests_made) ∧
    ((backoffGo env now p c fuel st).2.quota.get p').daily =
      (st.quota.get p').daily := by
  induction fuel with
  | zero => exact fun st p' => ⟨Nat.le_add_right _ 0, fun _ => Nat.le_refl _, rfl⟩
  | succ n ih =>
    intro st p'
    obtain ⟨t1, t2, t3⟩ := tryVal_quota env now p c st p'
    unfold backoffGo
    split
    · next r st1 heq =>
      rw [heq] at t1 t2 t3
      have u1 : (st1.quota.get p').requests_made ≤
          (st.quota.get p').requests_made + 1 := t1
      have u3 : (st1.quota.get p').daily = (st.quota.get p').daily := t3
      refine ⟨?_, ?_, u3⟩
      · show (st1.quota.get p').requests_made ≤ _
        omega
      · intro hne
        show (st1.quota.get p').requests_made ≤ _
        exact t2 hne
    · next st1 heq =>
      rw [heq] at t1 t2 t3
      have u1 : (st1.quota.get p').requests_made ≤
          (st.quota.get p').requests_made + 1 := t1
      have u2 : p' ≠ p → (st1.quota.get p').requests_made ≤
          (st.quota.get p').requests_made := t2
      have u3 : (st1.quota.get p').daily = (st.quota.get p').daily := t3
      obtain ⟨s1, s2, s3⟩ := ih st1 p'
      refine ⟨by omega, ?_, s3.trans u3⟩
      intro hne
      have v1 := s2 hne
      have v2 := u2 hne
      omega
    · next msg st1 heq =>
      rw [heq] at t1 t2 t3
      have u1 : (st1.quota.get p').requests_made ≤
          (st.quota.get p').requests_made + 1 := t1
      have u2 : p' ≠ p → (st1.quota.get p').requests_made ≤
          (st.quota.get p').requests_made := t2
      have u3 : (st1.quota.get p').daily = (st.quota.get p').daily := t3
      split
      · obtain ⟨s1, s2, s3⟩ := ih st1 p'
        refine ⟨by omega, ?_, s3.trans u3⟩
        intro hne
        have v1 := s2 hne
        have v2 := u2 hne
        omega
      · have hq := register_failure_quota now p msg st1
        refine ⟨?_, ?_, ?_⟩
        · show ((register_failure now p msg st1).quota.get p').requests_made ≤ _
          rw [hq]
          omega
        · intro hne
          show ((register_failure now p msg st1).quota.get p').requests_made ≤ _
          rw [hq]
          exact u2 hne
        · show ((register_failure now p msg st1).quota.get p').daily = _
          rw [hq]
          exact u3

theorem tryBackoff_quota (env : Env) (now : Nat) (p : PName) (c : String)
    (st : GState) (p' : PName) :
    ((try_provider_with_exponential_backoff env now p c st).2.quota.get p').requests_made ≤
      (st.quota.get p').requests_made + 3 ∧
    (p' ≠ p →
      ((try_provider_with_exponential_backoff env now p c st).2.quota.get p').requests_made ≤
        (st.quota.get p').requests_made) ∧
    ((try_provider_with_exponential_backoff env now p c st).2.quota.get p').daily =
      (st.quota.get p').daily := by
  simp only [try_provider_with_exponential_backoff]
  obtain ⟨a, b, d⟩ := backoffGo_quota env now p c 3
    { st with candLog := st.candLog ++ [(p, decide (p ∈ st.disabled))] } p'
  exact ⟨a, b, d⟩

/-- Across the fallback loop, every provider's usage stays below
`max (initial usage) (daily limit + 2)`: each candidate's quota is checked
(strictly below the limit) before its retry loop, which then adds at most
3. -/
theorem gaLoop_quota (env : Env) (now : Nat) (c : String) (best : Option PName) :
    ∀ (L : List PName) (st : GState) (p' : PName),
    ((gaLoop env now c best L st).2.quota.get p').requests_made ≤
      max ((st.quota.get p').requests_made) ((st.quota.get p').daily + 2) ∧
    ((gaLoop env now c best L st).2.quota.get p').daily = (st.quota.get p').daily := by
  intro L
  induction L with
  | nil => exact fun st p' => ⟨Nat.le_max_left _ _, rfl⟩
  | cons name rest ih =>
    intro st p'
    unfold gaLoop
    split
    · exact ih st p'
    · split
      · exact ih st p'
      · have hrm := reset_counters_le now st.quota p'
        have hdl := reset_counters_daily now st.quota p'
        by_cases hcu : (!(can_use_provider now st.quota name).1) = true
        · rw [if_pos hcu]
          obtain ⟨a, d⟩ :=
            ih { st with quota := (can_use_provider now st.quota name).2 } p'
          have a' : ((gaLoop env now c best rest
              { st with quota := (can_use_provider now st.quota name).2 }).2.quota.get
                p').requests_made ≤
              max (((reset_counters now st.quota).get p').requests_made)
                (((reset_counters now st.quota).get p').daily + 2) := a
          have d' : ((gaLoop env now c best rest
              { st with quota := (can_use_provider now st.quota name).2 }).2.quota.get
                p').daily = ((reset_counters now st.quota).get p').daily := d
          refine ⟨by omega, by omega⟩
        · rw [if_neg hcu]
          have hcu' : (can_use_provider now st.quota name).1 = true := by
            revert hcu
            cases (can_use_provider now st.quota name).1 <;> simp
          have hlt := can_use_true now st.quota name hcu'
          have hltn : ((reset_counters now st.quota).get name).requests_made <
              ((reset_counters now st.quota).get name).daily := hlt
          have hrmn := reset_counters_le now st.quota name
          have hdln := reset_counters_daily now st.quota name
          split
          · next r st2 heq =>
            obtain ⟨a, b, d⟩ := tryBackoff_quota env now name c
              { st with quota := (can_use_provider now st.quota name).2 } p'
            rw [heq] at a b d
            have a' : (st2.quota.get p').requests_made ≤
                ((reset_counters now st.quota).get p').requests_made + 3 := a
            have b' : p' ≠ name → (st2.quota.get p').requests_made ≤
                ((reset_counters now st.quota).get p').requests_made := b
            have d' : (st2.quota.get p').daily =
                ((reset_counters now st.quota).get p').daily := d
            clear a b d hlt hcu hcu'
            refine ⟨?_, ?_⟩
            · show (st2.quota.get p').requests_made ≤ _
              by_cases hp : p' = name
              · subst hp
                omega
              · have hb := b' hp
                omega
            · show (st2.quota.get p').daily = _
              omega
          · next st2 heq =>
            obtain ⟨a, b, d⟩ := tryBackoff_quota env now name c
              { st with quota := (can_use_provider now st.quota name).2 } p'
            rw [heq] at a b d
            have a' : (st2.quota.get p').requests_made ≤
                ((reset_counters now st.quota).get p').requests_made + 3 := a
            have b' : p' ≠ name → (st2.quota.get p').requests_made ≤
                ((reset_counters now st.quota).get p').requests_made := b
            have d' : (st2.quota.get p').daily =
                ((reset_counters now st.quota).get p').daily := d
            clear a b d hlt hcu hcu'
            obtain ⟨s1, s2⟩ := ih st2 p'
            have hmid : (st2.quota.get p').requests_made ≤
                max ((st.quota.get p').requests_made) ((st.quota.get p').daily + 2) := by
              by_cases hp : p' = name
              · subst hp
                omega
              · have hb := b' hp
                omega
            refine ⟨by omega, by omega⟩

/-- Same bound for the best-provider attempt, under the quota check that
`get_best_provider` performed. -/
theorem gaFirst_quota (env : Env) (now : Nat) (c : String) (best : Option PName)
    (st : GState) (p' : PName)
    (hbest : ∀ b, best = some b →
      (st.quota.get b).requests_made < (st.quota.get b).daily) :
    ((gaFirst env now c best st).2.quota.get p').requests_made ≤
      max ((st.quota.get p').requests_made) ((st.quota.get p').daily + 2) ∧
    ((gaFirst env now c best st).2.quota.get p').daily = (st.quota.get p').daily := by
  unfold gaFirst
  split
  · next b =>
    split
    · exact ⟨Nat.le_max_left _ _, rfl⟩
    · obtain ⟨a, bb, d⟩ := tryBackoff_quota env now b c st p'
      have hlt := hbest b rfl
      refine ⟨?_, d⟩
      by_cases hp : p' = b
      · subst hp
        omega
      · have := bb hp
        omega
  · exact ⟨Nat.le_max_left _ _, rfl⟩

/-- C5 (amended): after any `generate_analysis` call, each provider's
`requests_made` is at most `max (its previous value) (daily limit + 2)`:
quota eligibility is checked once per candidate (requiring strictly-below
the limit), and the retry loop then increments up to 3 times without
rechecking, so the limit can be exceeded by at most 2. -/
theorem c5_requests_bound (env : Env) (now : Nat) (prompt c : String)
    (data : EmCtx) (st : GState) (p' : PName) :
    ((generate_analysis env now prompt c data st).2.quota.get p').requests_made ≤
      max ((st.quota.get p').requests_made) ((st.quota.get p').daily + 2) := by
  simp only [generate_analysis]
  have hcq : (check_and_reactivate_providers now st).quota = st.quota :=
    (check_and_reactivate_frame now st).1
  rw [hcq]
  have hgb1 : ((get_best_provider now c st.quota).2.get p').requests_made ≤
      (st.quota.get p').requests_made :=
    (get_best_provider_le now c st.quota p').1
  have hgb2 : ((get_best_provider now c st.quota).2.get p').daily =
      (st.quota.get p').daily :=
    (get_best_provider_le now c st.quota p').2
  split
  · next r st1 heq =>
    obtain ⟨a, d⟩ := gaFirst_quota env now c
      (get_best_provider now c st.quota).1
      { check_and_reactivate_providers now st with
        quota := (get_best_provider now c st.quota).2 } p'
      (fun b hb => get_best_provider_some now c st.quota b hb)
    rw [heq] at a
    have a' : (st1.quota.get p').requests_made ≤
        max (((get_best_provider now c st.quota).2.get p').requests_made)
          (((get_best_provider now c st.quota).2.get p').daily + 2) := a
    show (st1.quota.get p').requests_made ≤ _
    omega
  · next st1 heq =>
    obtain ⟨a, d⟩ := gaFirst_quota env now c
      (get_best_provider now c st.quota).1
      { check_and_reactivate_providers now st with
        quota := (get_best_provider now c st.quota).2 } p'
      (fun b hb => get_best_provider_some now c st.quota b hb)
    rw [heq] at a d
    have a' : (st1.quota.get p').requests_made ≤
        max (((get_best_provider now c st.quota).2.get p').requests_made)
          (((get_best_provider now c st.quota).2.get p').daily + 2) := a
    have d' : (st1.quota.get p').daily =
        ((get_best_provider now c st.quota).2.get p').daily := d
    obtain ⟨s1, s2⟩ := gaLoop_quota env now c
      (get_best_provider now c st.quota).1
      (get_intelligent_fallback_order st1) st1 p'
    split
    · next r2 st2 heq2 =>
      rw [heq2] at s1
      have s1' : (st2.quota.get p').requests_made ≤
          max ((st1.quota.get p').requests_made) ((st1.quota.get p').daily + 2) := s1
      show (st2.quota.get p').requests_made ≤ _
      omega
    · next st2 heq2 =>
      rw [heq2] at s1
      have s1' : (st2.quota.get p').requests_made ≤
          max ((st1.quota.get p').requests_made) ((st1.quota.get p').daily + 2) := s1
      show (st2.quota.get p').requests_made ≤ _
      omega

/- ---------------------------------------------------------------------
C1: non-emptiness of every generation result.
--------------------------------------------------------------------- -/

/-- A text returned by a validated attempt passed the validator and has at
least 50 stripped characters. -/
theorem tryVal_some (env : Env) (now : Nat) (p : PName) (c : String) (st : GState)
    {r : String} {st' : GState}
    (h : try_provider_with_validation env now p c st = (.ok (some r), st')) :
    (validate_content r c).1 = true ∧ 50 ≤ (pyStrip r.data).length := by
  simp only [try_provider_with_validation, takeOutcome] at h
  split at h
  · exact Option.noConfusion (TryOut.ok.inj (congrArg Prod.fst h))
  · split at h
    · exact Option.noConfusion (TryOut.ok.inj (congrArg Prod.fst h))
    · split at h
      · exact TryOut.noConfusion (congrArg Prod.fst h)
      · split at h
        · exact Option.noConfusion (TryOut.ok.inj (congrArg Prod.fst h))
        · exact Option.noConfusion (TryOut.ok.inj (congrArg Prod.fst h))
        · exact Option.noConfusion (TryOut.ok.inj (congrArg Prod.fst h))
        · split at h
          · exact Option.noConfusion (TryOut.ok.inj (congrArg Prod.fst h))
          · next hlen =>
            split at h
            · next hval =>
              have hr := Option.some.inj (TryOut.ok.inj (congrArg Prod.fst h))
              subst hr
              exact ⟨hval, Nat.not_lt.mp hlen⟩
            · exact Option.noConfusion (TryOut.ok.inj (congrArg Prod.fst h))

theorem backoffGo_some (env : Env) (now : Nat) (p : PName) (c : String) :
    ∀ (fuel : Nat) (st : GState) (r : String) (st' : GState),
    backoffGo env now p c fuel st = (some r, st') →
    (validate_content r c).1 = true ∧ 50 ≤ (pyStrip r.data).length := by
  intro fuel
  induction fuel with
  | zero => exact fun st r st' h => Option.noConfusion (congrArg Prod.fst h)
  | succ n ih =>
    intro st r st' h
    unfold backoffGo at h
    split at h
    · next r2 st2 heq =>
      have hr := Option.some.inj (congrArg Prod.fst h)
      subst hr
      exact tryVal_some env now p c st heq
    · next st2 heq => exact ih st2 r st' h
    · next msg st2 heq =>
      split at h
      · exact ih _ r st' h
      · exact Option.noConfusion (congrArg Prod.fst h)

theorem tryBackoff_some (env : Env) (now : Nat) (p : PName) (c : String)
    (st : GState) {r : String} {st' : GState}
    (h : try_provider_with_exponential_backoff env now p c st = (some r, st')) :
    (validate_content r c).1 = true ∧ 50 ≤ (pyStrip r.data).length := by
  simp only [try_provider_with_exponential_backoff] at h
  exact backoffGo_some env now p c 3 _ r st' h

theorem gaFirst_some (env : Env) (now : Nat) (c : String) (best : Option PName)
    (st : GState) {r : String} {st' : GState}
    (h : gaFirst env now c best st = (some r, st')) :
    (validate_content r c).1 = true ∧ 50 ≤ (pyStrip r.data).length := by
  unfold gaFirst at h
  split at h
  · split at h
    · exact Option.noConfusion (congrArg Prod.fst h)
    · exact tryBackoff_some env now _ c st h
  · exact Option.noConfusion (congrArg Prod.fst h)

theorem gaLoop_some (env : Env) (now : Nat) (c : String) (best : Option PName) :
    ∀ (L : List PName) (st : GState) (r : String) (st' : GState),
    gaLoop env now c best L st = (some r, st') →
    (validate_content r c).1 = true ∧ 50 ≤ (pyStrip r.data).length := by
  intro L
  induction L with
  | nil => exact fun st r st' h => Option.noConfusion (congrArg Prod.fst h)
  | cons name rest ih =>
    intro st r st' h
    unfold gaLoop at h
    split at h
    · exact ih st r st' h
    · split at h
      · exact ih st r st' h
      · split at h
        · exact ih _ r st' h
        · split at h
          · next r2 st2 heq =>
            have hr := Option.some.inj (congrArg Prod.fst h)
            subst hr
            exact tryBackoff_some env now name c _ heq
          · exact ih _ r st' h

/-- Every `generate_analysis` result is either a provider text that passed
the validator (with at least 50 stripped characters), or the enhanced
emergency template. -/
theorem generate_analysis_result (env : Env) (now : Nat) (prompt c : String)
    (data : EmCtx) (st : GState) (r : String) (st' : GState)
    (h : generate_analysis env now prompt c data st = (r, st')) :
    ((validate_content r c).1 = true ∧ 50 ≤ (pyStrip r.data).length) ∨
      r = enhanced_emergency_content c data := by
  simp only [generate_analysis] at h
  split at h
  · next r2 st2 heq =>
    have hr := congrArg Prod.fst h
    simp only [Prod.fst] at hr
    subst hr
    exact Or.inl (gaFirst_some env now c _ _ heq)
  · next st2 heq =>
    split at h
    · next r2 st3 heq2 =>
      have hr := congrArg Prod.fst h
      simp only [Prod.fst] at hr
      subst hr
      exact Or.inl (gaLoop_some env now c _ _ st2 r2 st3 heq2)
    · next st3 heq2 =>
      exact Or.inr (congrArg Prod.fst h).symm

theorem append_data_ne (a b : String) (h : a.data ≠ []) : (a ++ b).data ≠ [] := by
  rw [String.data_append]
  intro he
  exact h (List.append_eq_nil.mp he).1

theorem emergency_drivers_ne (s : String) : emergency_drivers s ≠ ("") :=
  fun he =>
    (append_data_ne _ _ (append_data_ne _ _ (append_data_ne _ _ (append_data_ne _ _
      (append_data_ne _ _ (append_data_ne _ _ (by decide)))))))
      (congrArg String.data he)

theorem emergency_proofs_ne (s : String) : emergency_proofs s ≠ ("") :=
  fun he =>
    (append_data_ne _ _ (append_data_ne _ _ (by decide))) (congrArg String.data he)

theorem emergency_anti_objection_ne : emergency_anti_objection ≠ ("") := by
  decide

theorem emergency_general_ne (s : String) : emergency_general s ≠ ("") :=
  fun he =>
    (append_data_ne _ _ (append_data_ne _ _ (append_data_ne _ _ (append_data_ne _ _
      (by decide))))) (congrArg String.data he)

/-- The enhanced emergency templates are never empty. -/
theorem enhanced_ne_empty (c : String) (data : EmCtx) :
    enhanced_emergency_content c data ≠ ("") := by
  unfold enhanced_emergency_content
  repeat' split
  all_goals
    first
      | exact emergency_drivers_ne _
      | exact emergency_proofs_ne _
      | exact emergency_anti_objection_ne
      | exact emergency_general_ne _

theorem strip50_ne (r : String) (h : 50 ≤ (pyStrip r.data).length) : r ≠ ("") := by
  intro he
  subst he
  exact absurd h (by decide)

/-- All four enhanced emergency templates (under the default segment
"negócios", i.e. an empty context) pass the validator for their own
component type, and for unknown component types as well. -/
theorem validate_emergency_pass (c : String) :
    (validate_content (enhanced_emergency_content c ⟨none, none⟩) c).1 = true := by
  by_cases h1 : c = ("mental_drivers")
  · subst h1; decide
  by_cases h2 : c = ("visual_proofs")
  · subst h2; decide
  by_cases h3 : c = ("anti_objection")
  · subst h3; decide
  by_cases h4 : c = ("general")
  · subst h4; decide
  have hm : minLengthOf c = 150 := by
    unfold minLengthOf
    rw [if_neg h1, if_neg h2, if_neg h3, if_neg h4]
  have hp : minUniquePct c = 25 := by
    unfold minUniquePct
    rw [if_neg h1, if_neg h2, if_neg h3, if_neg h4]
  unfold validate_content
  simp only [enhanced_emergency_content]
  rw [if_neg h1, if_neg h2, if_neg h3, hm, hp]
  decide

/-- C1: a `generate_analysis` call never returns an empty string (every
provider text was validated with ≥ 50 stripped characters, and the
emergency templates are non-empty), and `generate_content` never returns
an empty string either (its no-provider error string is non-empty, a
provider text revalidates successfully, and every emergency template
passes the final validation, so the empty-string fallback of the basic
template table is unreachable). -/
theorem c1_generate_nonempty (env : Env) (now : Nat) (prompt c : String)
    (data : EmCtx) (st : GState) (maxTokens : Nat) :
    (generate_analysis env now prompt c data st).1 ≠ ("") ∧
    (generate_content env now prompt maxTokens c st).1 ≠ ("") := by
  constructor
  · rcases hga : generate_analysis env now prompt c data st with ⟨r, st'⟩
    rcases generate_analysis_result env now prompt c data st r st' hga with ⟨_, hlen⟩ | hr
    · exact strip50_ne r hlen
    · show r ≠ ("")
      rw [hr]
      exact enhanced_ne_empty c data
  · simp only [generate_content]
    split
    · show ("Erro: Nenhum provedor de IA disponível." : String) ≠ ("")
      decide
    · rcases hga : generate_analysis env now prompt c ⟨none, none⟩ st with ⟨r, st1⟩
      have hkey : (validate_content r c).1 = true ∧ r ≠ ("") := by
        rcases generate_analysis_result env now prompt c ⟨none, none⟩ st r st1 hga with
          ⟨hval, hlen⟩ | hr
        · exact ⟨hval, strip50_ne r hlen⟩
        · constructor
          · rw [hr]; exact validate_emergency_pass c
          · rw [hr]; exact enhanced_ne_empty c _
      split
      · split
        · exact hkey.2
        · next hv => exact absurd hkey.1 hv
      · split
        · next hemp => exact absurd hemp hkey.2
        · exact hkey.2

end V601
